import Mathlib

/-!
Verification of the offline-first synchronization engine of the InventoryApp
(React Native) contained in this repository.

The embedding models the sync core from the source files
`src/InventoryApp/src/services/database.ts` (local SQLite store) and
`src/InventoryApp/src/services/storage.ts` (the `SyncService` class, third
document of that file).  Timestamps are modelled as integers (milliseconds
since the Unix epoch); SQLite REAL columns (prices) are modelled as integers
since the modelled code only stores and copies them, never computes with
them.  The callback-based `executeSql` transactions always take their
success path in the modelled fragment (no SQL statement in the sync flow can
fail except the duplicate-key INSERT of `addInventoryItem`, which is
modelled explicitly), so database operations are total functions on an
explicit database value.
-/

/-- Sync status of a local record, database.ts 22-27 (`SyncStatus` enum). -/
inductive SyncStatus
  | synced
  | pending
  | failed
  | conflict
deriving DecidableEq, Repr

/-- Conflict resolution policy, storage.ts 367
    (`conflictResolution: 'client_wins' | 'server_wins' | 'newest_wins'`). -/
inductive ConflictPolicy
  | clientWins
  | serverWins
  | newestWins
deriving DecidableEq, Repr

/-- One HTTP request issued by `apiRequest` (storage.ts 756-798); only the
    method and the path are observable to the claims.  Every request also
    carries the `Authorization: Bearer apiKey` header built from the sync
    configuration; the header is not modelled because no claim mentions it. -/
structure Request where
  method : String
  path : String
deriving DecidableEq, Repr

/-- Row of the `categories` table, database.ts 53-66. -/
structure CategoryRow where
  id : String
  name : String
  description : Option String
  color : String
  created_at : Int
  updated_at : Int
  sync_status : SyncStatus
  last_synced_at : Option Int
  remote_id : Option String
  version : Int
deriving DecidableEq, Repr

/-- Row of the `inventory_items` table, database.ts 69-89. -/
structure ItemRow where
  id : String
  name : String
  description : Option String
  category_id : Option String
  quantity : Int
  unit_price : Int
  location : Option String
  barcode : Option String
  image_uri : Option String
  minimum_stock : Option Int
  created_at : Int
  updated_at : Int
  sync_status : SyncStatus
  last_synced_at : Option Int
  remote_id : Option String
  version : Int
deriving DecidableEq, Repr

/-- Row of the `customers` table, database.ts 92-106. -/
structure CustomerRow where
  id : String
  name : String
  email : Option String
  phone : Option String
  address : Option String
  created_at : Int
  updated_at : Int
  sync_status : SyncStatus
  last_synced_at : Option Int
  remote_id : Option String
  version : Int
deriving DecidableEq, Repr

/-- Row of the `orders` table, database.ts 109-128. -/
structure OrderRow where
  id : String
  order_number : String
  customer_id : Option String
  customer_name : String
  total_amount : Int
  status : String
  order_date : Int
  expected_delivery_date : Option Int
  notes : Option String
  created_at : Int
  updated_at : Int
  sync_status : SyncStatus
  last_synced_at : Option Int
  remote_id : Option String
  version : Int
deriving DecidableEq, Repr

/-- Row of the `order_items` table, database.ts 131-147. -/
structure OrderItemRow where
  id : String
  order_id : String
  inventory_item_id : String
  inventory_item_name : String
  quantity : Int
  unit_price : Int
  total_price : Int
  sync_status : SyncStatus
  last_synced_at : Option Int
  remote_id : Option String
  version : Int
deriving DecidableEq, Repr

/-- Row of the append-only `sync_log` table, database.ts 150-161.  The
    AUTOINCREMENT integer primary key is the row position and is omitted. -/
structure SyncLogRow where
  entity_type : String
  entity_id : String
  operation : String
  sync_status : SyncStatus
  error_message : Option String
  attempted_at : Int
  completed_at : Option Int
deriving DecidableEq, Repr

/-- Row of the `app_settings` table, database.ts 164-170. -/
structure SettingRow where
  key : String
  value : String
  updated_at : Int
deriving DecidableEq, Repr

/-- The local SQLite database: one list of rows per table. -/
structure Db where
  categories : List CategoryRow
  inventory_items : List ItemRow
  customers : List CustomerRow
  orders : List OrderRow
  order_items : List OrderItemRow
  sync_log : List SyncLogRow
  app_settings : List SettingRow
deriving DecidableEq, Repr

/-- Sync configuration, storage.ts 362-368 (`SyncConfig`). -/
structure SyncConfig where
  apiBaseUrl : String
  apiKey : String
  autoSyncEnabled : Bool
  syncIntervalMinutes : Int
  conflictResolution : ConflictPolicy
deriving DecidableEq, Repr

/-- In-memory state of the `SyncService` singleton, storage.ts 395-397. -/
structure SyncSvc where
  syncConfig : Option SyncConfig
  syncInProgress : Bool
  lastSyncTime : Option Int
deriving DecidableEq, Repr

/-- The two pre-cycle failures of `performFullSync`, storage.ts 457-463:
    `throw new Error('Sync not configured. ...')` and
    `throw new Error('Sync already in progress')`. -/
inductive SyncError
  | notConfigured
  | alreadyInProgress
deriving DecidableEq, Repr

/-- The four synced entity types, in the table-name strings used by
    storage.ts 580-589 and database.ts (template parameter `entityType`). -/
inductive EntityTable
  | categories
  | inventory_items
  | customers
  | orders
deriving DecidableEq, Repr

/-- Table-name string of an entity type as passed to the database service
    (storage.ts 580-589). -/
def EntityTable.tableName : EntityTable → String
  | .categories => "categories"
  | .inventory_items => "inventory_items"
  | .customers => "customers"
  | .orders => "orders"

/-- Endpoint mapping `getEntityEndpoint`, storage.ts 746-754. -/
def getEntityEndpoint : EntityTable → String
  | .categories => "/categories"
  | .inventory_items => "/inventory"
  | .customers => "/customers"
  | .orders => "/orders"

/-! ### Generic sync bookkeeping over one table

`getPendingSyncItems`, `markItemSynced` and `markItemSyncFailed`
(database.ts 426-500) are single functions parameterised by the table name;
they read and write only the common sync columns.  They are modelled
generically through the `SyncRow` interface, instantiated by each synced
table's row type. -/

class SyncRow (ρ : Type) where
  rowId : ρ → String
  syncStatus : ρ → SyncStatus
  remoteId : ρ → Option String
  markSynced : ρ → Option String → Int → ρ
  setStatus : ρ → SyncStatus → ρ
  rowId_markSynced : ∀ r rid t, rowId (markSynced r rid t) = rowId r
  status_markSynced : ∀ r rid t, syncStatus (markSynced r rid t) = .synced
  remoteId_markSynced : ∀ r rid t, remoteId (markSynced r rid t) = rid
  rowId_setStatus : ∀ r s, rowId (setStatus r s) = rowId r
  status_setStatus : ∀ r s, syncStatus (setStatus r s) = s

instance instSyncRowCategoryRow : SyncRow CategoryRow where
  rowId r := r.id
  syncStatus r := r.sync_status
  remoteId r := r.remote_id
  markSynced r rid t := { r with sync_status := .synced, last_synced_at := some t, remote_id := rid }
  setStatus r s := { r with sync_status := s }
  rowId_markSynced _ _ _ := rfl
  status_markSynced _ _ _ := rfl
  remoteId_markSynced _ _ _ := rfl
  rowId_setStatus _ _ := rfl
  status_setStatus _ _ := rfl

instance instSyncRowItemRow : SyncRow ItemRow where
  rowId r := r.id
  syncStatus r := r.sync_status
  remoteId r := r.remote_id
  markSynced r rid t := { r with sync_status := .synced, last_synced_at := some t, remote_id := rid }
  setStatus r s := { r with sync_status := s }
  rowId_markSynced _ _ _ := rfl
  status_markSynced _ _ _ := rfl
  remoteId_markSynced _ _ _ := rfl
  rowId_setStatus _ _ := rfl
  status_setStatus _ _ := rfl

instance instSyncRowCustomerRow : SyncRow CustomerRow where
  rowId r := r.id
  syncStatus r := r.sync_status
  remoteId r := r.remote_id
  markSynced r rid t := { r with sync_status := .synced, last_synced_at := some t, remote_id := rid }
  setStatus r s := { r with sync_status := s }
  rowId_markSynced _ _ _ := rfl
  status_markSynced _ _ _ := rfl
  remoteId_markSynced _ _ _ := rfl
  rowId_setStatus _ _ := rfl
  status_setStatus _ _ := rfl

instance instSyncRowOrderRow : SyncRow OrderRow where
  rowId r := r.id
  syncStatus r := r.sync_status
  remoteId r := r.remote_id
  markSynced r rid t := { r with sync_status := .synced, last_synced_at := some t, remote_id := rid }
  setStatus r s := { r with sync_status := s }
  rowId_markSynced _ _ _ := rfl
  status_markSynced _ _ _ := rfl
  remoteId_markSynced _ _ _ := rfl
  rowId_setStatus _ _ := rfl
  status_setStatus _ _ := rfl

/-- `getPendingSyncItems(entityType, limit)`, database.ts 426-451:
    SELECT * FROM table WHERE sync_status = 'pending' LIMIT limit. -/
def getPendingSyncItems {ρ : Type} [SyncRow ρ] (rows : List ρ) (limit : Nat) : List ρ :=
  (rows.filter (fun r => SyncRow.syncStatus r == SyncStatus.pending)).take limit

/-- `markItemSynced(entityType, localId, remoteId)`, database.ts 453-472:
    UPDATE table SET sync_status = 'synced', last_synced_at = now,
    remote_id = remoteId WHERE id = localId.  The UPDATE statement succeeds
    regardless of how many rows match (zero matching rows is not an SQL
    error), so the operation is total.  The `remoteId` argument may be a JS
    `undefined` (storage.ts 614 passes `response.data.id || item.remote_id`),
    hence the `Option`. -/
def markItemSyncedRows {ρ : Type} [SyncRow ρ] (rows : List ρ) (localId : String)
    (remoteId : Option String) (now : Int) : List ρ :=
  rows.map (fun r => if SyncRow.rowId r == localId then SyncRow.markSynced r remoteId now else r)

/-- `markItemSyncFailed(entityType, localId, errorMessage)`, database.ts
    474-500, restricted to the row update: UPDATE table SET
    sync_status = 'failed' WHERE id = localId.  The sync_log insertion done
    by the same function is handled by the database-level wrapper below. -/
def markItemSyncFailedRows {ρ : Type} [SyncRow ρ] (rows : List ρ) (localId : String) : List ρ :=
  rows.map (fun r => if SyncRow.rowId r == localId then SyncRow.setStatus r SyncStatus.failed else r)

/-- The sync_log entry inserted by `markItemSyncFailed`, database.ts 487-491. -/
def mkFailLogRow (entityType localId errorMessage : String) (now : Int) : SyncLogRow :=
  { entity_type := entityType, entity_id := localId, operation := "sync",
    sync_status := .failed, error_message := some errorMessage,
    attempted_at := now, completed_at := some now }

/-- Database-level `markItemSynced` dispatched on the table name. -/
def dbMarkSynced (db : Db) (t : EntityTable) (localId : String)
    (remoteId : Option String) (now : Int) : Db :=
  match t with
  | .categories => { db with categories := markItemSyncedRows db.categories localId remoteId now }
  | .inventory_items =>
      { db with inventory_items := markItemSyncedRows db.inventory_items localId remoteId now }
  | .customers => { db with customers := markItemSyncedRows db.customers localId remoteId now }
  | .orders => { db with orders := markItemSyncedRows db.orders localId remoteId now }

/-- Database-level `markItemSyncFailed` dispatched on the table name; also
    appends the audit entry to sync_log (database.ts 487-491). -/
def dbMarkFailed (db : Db) (t : EntityTable) (localId errorMessage : String) (now : Int) : Db :=
  let logged := db.sync_log ++ [mkFailLogRow t.tableName localId errorMessage now]
  match t with
  | .categories =>
      { db with categories := markItemSyncFailedRows db.categories localId, sync_log := logged }
  | .inventory_items =>
      { db with inventory_items := markItemSyncFailedRows db.inventory_items localId,
                sync_log := logged }
  | .customers =>
      { db with customers := markItemSyncFailedRows db.customers localId, sync_log := logged }
  | .orders =>
      { db with orders := markItemSyncFailedRows db.orders localId, sync_log := logged }

/-- `getSetting(key)`, database.ts 543-568. -/
def getSetting (db : Db) (key : String) : Option String :=
  (db.app_settings.find? (fun r => r.key == key)).map (fun r => r.value)

/-- `setSetting(key, value)`, database.ts 570-589: INSERT OR REPLACE, i.e.
    any existing row with the key is replaced. -/
def dbSetSetting (db : Db) (key value : String) (now : Int) : Db :=
  { db with app_settings :=
      db.app_settings.filter (fun r => r.key != key) ++
        [{ key := key, value := value, updated_at := now }] }

/-- `clearAllData()`, database.ts 652-672: deletes all rows of order_items,
    orders, customers, inventory_items, categories and sync_log; the
    app_settings table is not touched. -/
def clearAllData (db : Db) : Db :=
  { db with order_items := [], orders := [], customers := [],
            inventory_items := [], categories := [], sync_log := [] }

/-! ### Local CRUD on inventory items and categories

The objects the sync service manipulates are the JS objects produced by the
database service's row mappers, which use camelCase field names for
inventory items (database.ts 323-336) and a four-field shape for categories
(database.ts 219-224).  Crucially, neither mapped shape carries an
`updated_at` key: the mapped inventory item carries `updatedAt` and the
mapped category carries no timestamp at all.  A JS read of `.updated_at` on
either object therefore yields `undefined`; this is modelled by `none`. -/

/-- Mapped inventory item as returned by `getInventoryItems`
    (database.ts 323-336): camelCase fields, `description`/`location`
    defaulted to the empty string, `category` holding the joined category
    NAME (or the string Unknown). -/
structure MappedItem where
  id : String
  name : String
  description : String
  category : String
  quantity : Int
  unitPrice : Int
  location : String
  barcode : Option String
  imageUri : Option String
  minimumStock : Option Int
  createdAt : Int
  updatedAt : Int
deriving DecidableEq, Repr

/-- Mapped category as returned by `getCategories` (database.ts 219-224). -/
structure MappedCategory where
  id : String
  name : String
  description : Option String
  color : String
deriving DecidableEq, Repr

/-- Row-to-object mapping of `getInventoryItems` (database.ts 323-336),
    including the LEFT JOIN resolving `category_id` to the category name
    with fallback to the string Unknown (database.ts 271-273, 327). -/
def mapItemRow (cats : List CategoryRow) (r : ItemRow) : MappedItem :=
  { id := r.id, name := r.name, description := r.description.getD "",
    category :=
      match r.category_id with
      | some cid =>
          match cats.find? (fun c => c.id == cid) with
          | some c => c.name
          | none => "Unknown"
      | none => "Unknown",
    quantity := r.quantity, unitPrice := r.unit_price,
    location := r.location.getD "", barcode := r.barcode,
    imageUri := r.image_uri, minimumStock := r.minimum_stock,
    createdAt := r.created_at, updatedAt := r.updated_at }

/-- Row-to-object mapping of `getCategories` (database.ts 219-224). -/
def mapCategoryRow (r : CategoryRow) : MappedCategory :=
  { id := r.id, name := r.name, description := r.description, color := r.color }

/-- Insertion step of an insertion sort by descending `updated_at`,
    modelling SQL ORDER BY updated_at DESC (database.ts 300-302); tie order
    among equal timestamps is unspecified in SQL and immaterial here. -/
def insertDescByUpdatedAt (r : ItemRow) : List ItemRow → List ItemRow
  | [] => [r]
  | x :: xs => if x.updated_at ≤ r.updated_at then r :: x :: xs else x :: insertDescByUpdatedAt r xs

/-- Sort rows by descending `updated_at` (SQL ORDER BY updated_at DESC). -/
def sortByUpdatedAtDesc (rows : List ItemRow) : List ItemRow :=
  rows.foldr insertDescByUpdatedAt []

/-- `getInventoryItemById(id)`, database.ts 592-595: it calls
    `getInventoryItems` with limit 1 and no search text — i.e. the SQL has
    no WHERE clause, sorts by updated_at DESC and returns at most ONE row —
    and then searches that one-element list for the id.  The lookup
    consequently finds a record only when it happens to be the single most
    recently updated row of the whole table. -/
def getInventoryItemById (db : Db) (id : String) : Option MappedItem :=
  ((((sortByUpdatedAtDesc db.inventory_items).take 1).map (mapItemRow db.categories)).find?
    (fun i => i.id == id))

/-- `addInventoryItem(item)`, database.ts 349-385: INSERT of the camelCase
    object's fields into snake_case columns, with sync_status 'pending' and
    version 1.  The `category` field of the object is written into the
    `category_id` column (database.ts 365).  The INSERT violates the
    primary-key constraint — rejecting the promise — when a row with the
    same id already exists.  `newItemRow` is the inserted row. -/
def newItemRow (item : MappedItem) : ItemRow :=
  { id := item.id, name := item.name, description := some item.description,
    category_id := some item.category, quantity := item.quantity,
    unit_price := item.unitPrice, location := some item.location,
    barcode := item.barcode, image_uri := item.imageUri,
    minimum_stock := item.minimumStock, created_at := item.createdAt,
    updated_at := item.updatedAt, sync_status := .pending,
    last_synced_at := none, remote_id := none, version := 1 }

def addInventoryItemRows (rows : List ItemRow) (item : MappedItem) :
    Except String (List ItemRow) :=
  if rows.any (fun r => r.id == item.id) then
    Except.error "UNIQUE constraint failed: inventory_items.id"
  else
    Except.ok (rows ++ [newItemRow item])

/-- `updateInventoryItem(item)`, database.ts 387-423: UPDATE of the payload
    columns WHERE id = item.id, with updated_at set to the CURRENT time
    (`new Date().toISOString()`, line 411 — not the object's updatedAt),
    sync_status set to 'pending' and version incremented (line 399). -/
def updateItemRows (rows : List ItemRow) (item : MappedItem) (now : Int) : List ItemRow :=
  rows.map (fun r =>
    if r.id == item.id then
      { r with name := item.name, description := some item.description,
               category_id := some item.category, quantity := item.quantity,
               unit_price := item.unitPrice, location := some item.location,
               barcode := item.barcode, image_uri := item.imageUri,
               minimum_stock := item.minimumStock, updated_at := now,
               sync_status := .pending, version := r.version + 1 }
    else r)

/-- `addCategory(category, ignoreIfExists = true)`, database.ts 237-260 as
    called from the pull path (storage.ts 637): INSERT OR IGNORE of
    (id, name, description, color) with sync_status 'pending', version 1 and
    timestamp columns filled by the SQL DEFAULT CURRENT_TIMESTAMP. -/
def newCategoryRow (id name : String) (description : Option String) (color : String)
    (now : Int) : CategoryRow :=
  { id := id, name := name, description := description, color := color,
    created_at := now, updated_at := now, sync_status := .pending,
    last_synced_at := none, remote_id := none, version := 1 }

def addCategoryRowsIgnore (rows : List CategoryRow) (id name : String)
    (description : Option String) (color : String) (now : Int) : List CategoryRow :=
  if rows.any (fun r => r.id == id) then rows
  else rows ++ [newCategoryRow id name description color now]

/-! ### Conflict resolver -/

/-- JS comparison `new Date(x) > new Date(y)` (storage.ts 712-714) where
    either operand may be a JS `undefined`: `new Date(undefined)` is an
    Invalid Date whose time value is NaN, and every ordered comparison
    involving NaN is false. -/
def jsDateGt : Option Int → Option Int → Bool
  | some a, some b => a > b
  | _, _ => false

/-- The conflict-resolution switch of `handleDataConflict`, storage.ts
    701-716, as a function of the policy and of the `updated_at` values the
    code reads from the two records (`localData.updated_at`,
    `remoteData.updated_at`).  Returns the value of `shouldUseRemote`. -/
def resolveUseRemote (policy : ConflictPolicy)
    (localUpdatedAt remoteUpdatedAt : Option Int) : Bool :=
  match policy with
  | .serverWins => true
  | .clientWins => false
  | .newestWins => jsDateGt remoteUpdatedAt localUpdatedAt

/-! ### Remote API model

The remote server is a collaborator outside this repository; its contract
is given by the spec (section 6).  GET responses are modelled as the data
the server would answer with, and push (POST/PUT) outcomes as a function of
the request.  `apiRequest` (storage.ts 756-798) translates HTTP and
network-level failures into its failure variant instead of throwing, so a
remote response is either success-with-data or a failure message. -/

/-- Remote payload of a category, as consumed by `handleRemoteCategory`
    (storage.ts 630-643) and `handleDataConflict`. -/
structure RemoteCategory where
  id : String
  name : String
  description : Option String
  color : String
  updated_at : Int
  version : Int
deriving DecidableEq, Repr

/-- Remote payload of an inventory item, snake_case fields as consumed by
    `handleRemoteInventoryItem` (storage.ts 646-673). -/
structure RemoteItem where
  id : String
  name : String
  description : Option String
  category_id : String
  quantity : Int
  unit_price : Int
  location : Option String
  barcode : Option String
  image_uri : Option String
  minimum_stock : Option Int
  created_at : Int
  updated_at : Int
  version : Int
deriving DecidableEq, Repr

/-- Result of a GET request as seen through `apiRequest`: either the parsed
    body or a failure message (HTTP error or network error, both mapped to
    the failure variant, storage.ts 786-797). -/
inductive GetResp (α : Type)
  | ok (data : α)
  | err (msg : String)
deriving DecidableEq, Repr

/-- Outcome of a push (POST/PUT) as the code observes it: `ok dataId`
    corresponds to `response.success && response.data` with
    `response.data.id = dataId`; `fail msg` covers HTTP failures, network
    failures and a success response with an empty body, all of which take
    the failure branch of `pushPendingItems` (storage.ts 613-619). -/
inductive PushOutcome
  | ok (dataId : Option String)
  | fail (msg : Option String)

/-- Modelled from the spec: the remote API (spec section 6), an external
    collaborator whose server code is not part of this repository.  GET
    /categories returns all categories; GET with a since parameter returns
    the records updated at or after the given time; pushes are answered by
    `pushOutcome`. -/
structure Remote where
  categoriesResp : GetResp (List RemoteCategory)
  inventoryResp : GetResp (List RemoteItem)
  customersResp : GetResp (List Unit)
  ordersResp : GetResp (List Unit)
  pushOutcome : Request → PushOutcome

/-- Modelled from the spec: server-side since filtering for
    GET /inventory?since= (spec section 6: records updated at or after
    since).  When the client has never synced it sends the epoch
    (storage.ts 532), modelled as time 0. -/
def Remote.inventorySince (R : Remote) (since : Option Int) : GetResp (List RemoteItem) :=
  match R.inventoryResp with
  | .ok l => .ok (l.filter (fun it => since.getD 0 ≤ it.updated_at))
  | .err m => .err m

/-- Rendering of the since timestamp into the query string
    (storage.ts 532: `lastSyncTime?.toISOString() || '1970-01-01...'`).
    The ISO rendering of the abstract integer timestamp is modelled as its
    decimal rendering, which is injective like the ISO format. -/
def isoOf : Option Int → String
  | none => "1970-01-01T00:00:00.000Z"
  | some t => toString t

/-! ### The sync cycle -/

/-- Entry of the conflict report, storage.ts 385-392 (`ConflictItem`).
    The localData/remoteData payload snapshots are carried per entity. -/
inductive ConflictData
  | categoryConflict (localData : MappedCategory) (remoteData : RemoteCategory)
  | itemConflict (localData : MappedItem) (remoteData : RemoteItem)
deriving DecidableEq, Repr

/-- Conflict report entry, storage.ts 385-392, 692-699. -/
structure ConflictItem where
  entityType : String
  localId : String
  localVersion : Int
  remoteVersion : Int
  payload : ConflictData
deriving DecidableEq, Repr

/-- Cycle report, storage.ts 378-383 (`SyncResult`). -/
structure SyncResult where
  success : Bool
  totalSynced : Nat
  errors : List String
  conflicts : List ConflictItem
deriving Repr

/-- Mutable state threaded through one cycle: the database plus the
    accumulating report fields and the trace of issued requests. -/
structure CycleSt where
  db : Db
  totalSynced : Nat
  errors : List String
  conflicts : List ConflictItem
  trace : List Request
deriving Repr

/-- JS `v || 1` on an integer version field (storage.ts 688-689): 0 is
    falsy, so a zero version is reported as 1. -/
def jsVersionOrOne (v : Int) : Int :=
  if v = 0 then 1 else v

/-- `handleDataConflict` for entityType 'categories' (storage.ts 685-744).
    The local record is the mapped category, which has no `version` and no
    `updated_at` key, so `localData.version || 1` evaluates to 1 and
    `localData.updated_at` is undefined (`none`).  When the remote wins,
    the entity-type test at line 720 fails for categories, so no field is
    overwritten; the record is only marked synced. -/
def handleDataConflictCategory (policy : ConflictPolicy) (now : Int) (st : CycleSt)
    (localData : MappedCategory) (remoteData : RemoteCategory) : CycleSt :=
  let conflict : ConflictItem :=
    { entityType := "categories", localId := localData.id, localVersion := 1,
      remoteVersion := jsVersionOrOne remoteData.version,
      payload := .categoryConflict localData remoteData }
  let shouldUseRemote := resolveUseRemote policy none (some remoteData.updated_at)
  if shouldUseRemote then
    { st with db := dbMarkSynced st.db .categories localData.id (some remoteData.id) now,
              totalSynced := st.totalSynced + 1 }
  else
    { st with conflicts := st.conflicts ++ [conflict] }

/-- The merged object built in the remote-wins branch of
    `handleDataConflict` for inventory items (storage.ts 721-733): the
    object spread keeps the local id (and createdAt), every other payload
    field comes from the remote record. -/
def mergedItem (localData : MappedItem) (remoteData : RemoteItem) : MappedItem :=
  { localData with name := remoteData.name,
                   description := remoteData.description.getD "",
                   category := remoteData.category_id,
                   quantity := remoteData.quantity,
                   unitPrice := remoteData.unit_price,
                   location := remoteData.location.getD "",
                   barcode := remoteData.barcode,
                   imageUri := remoteData.image_uri,
                   minimumStock := remoteData.minimum_stock,
                   updatedAt := remoteData.updated_at }

/-- `handleDataConflict` for entityType 'inventory_items'
    (storage.ts 685-744).  The local record is the camelCase mapped item,
    which has no `version` and no `updated_at` key (it has `updatedAt`), so
    `localData.version || 1` evaluates to 1 and `localData.updated_at` is
    undefined (`none`).  When the remote wins, the merged object is written
    back through `updateInventoryItem`, then the row is marked synced. -/
def handleDataConflictInventory (policy : ConflictPolicy) (now : Int) (st : CycleSt)
    (localData : MappedItem) (remoteData : RemoteItem) : CycleSt :=
  let conflict : ConflictItem :=
    { entityType := "inventory_items", localId := localData.id, localVersion := 1,
      remoteVersion := jsVersionOrOne remoteData.version,
      payload := .itemConflict localData remoteData }
  let shouldUseRemote := resolveUseRemote policy none (some remoteData.updated_at)
  if shouldUseRemote then
    let updatedItem : MappedItem := mergedItem localData remoteData
    let db1 := { st.db with inventory_items := updateItemRows st.db.inventory_items updatedItem now }
    { st with db := dbMarkSynced db1 .inventory_items localData.id (some remoteData.id) now,
              totalSynced := st.totalSynced + 1 }
  else
    { st with conflicts := st.conflicts ++ [conflict] }

/-- `handleRemoteCategory` (storage.ts 630-643): re-reads the category list
    from the store, looks the remote id up, inserts-and-marks-synced when
    absent, otherwise defers to the conflict handler. -/
def handleRemoteCategory (policy : ConflictPolicy) (now : Int) (st : CycleSt)
    (rc : RemoteCategory) : CycleSt :=
  let localCategories := st.db.categories.map mapCategoryRow
  match localCategories.find? (fun c => c.id == rc.id) with
  | none =>
      let newCats := addCategoryRowsIgnore st.db.categories rc.id rc.name rc.description rc.color now
      let db1 := { st.db with categories := newCats }
      let db2 := dbMarkSynced db1 .categories rc.id (some rc.id) now
      { st with db := db2, totalSynced := st.totalSynced + 1 }
  | some lc => handleDataConflictCategory policy now st lc rc

/-- The camelCase inventory item built from a remote payload when the id is
    absent locally, storage.ts 651-664. -/
def mappedOfRemoteItem (r : RemoteItem) : MappedItem :=
  { id := r.id, name := r.name, description := r.description.getD "",
    category := r.category_id, quantity := r.quantity, unitPrice := r.unit_price,
    location := r.location.getD "", barcode := r.barcode, imageUri := r.image_uri,
    minimumStock := r.minimum_stock, createdAt := r.created_at,
    updatedAt := r.updated_at }

/-- `handleRemoteInventoryItem` (storage.ts 646-673).  The error value is
    the rejection raised by a failing `addInventoryItem` INSERT; it
    propagates to the enclosing try of `pullInventoryItems`. -/
def handleRemoteInventoryItem (policy : ConflictPolicy) (now : Int) (st : CycleSt)
    (r : RemoteItem) : Except String CycleSt :=
  match getInventoryItemById st.db r.id with
  | none =>
      let newItem := mappedOfRemoteItem r
      match addInventoryItemRows st.db.inventory_items newItem with
      | .error e => .error e
      | .ok rows =>
          let db1 := { st.db with inventory_items := rows }
          let db2 := dbMarkSynced db1 .inventory_items newItem.id (some r.id) now
          .ok { st with db := db2, totalSynced := st.totalSynced + 1 }
  | some localItem => .ok (handleDataConflictInventory policy now st localItem r)

/-- The per-record loop of `pullCategories` (storage.ts 520-524). -/
def pullCategoriesLoop (policy : ConflictPolicy) (now : Int)
    (cats : List RemoteCategory) (st : CycleSt) : CycleSt :=
  cats.foldl (handleRemoteCategory policy now) st

/-- `pullCategories` (storage.ts 517-528): a GET of /categories with NO
    since parameter; on success every returned category is processed; a
    failed response is silently skipped (the `if` at line 520 guards the
    loop and nothing records an error for the failure variant). -/
def pullCategories (policy : ConflictPolicy) (R : Remote) (now : Int) (st : CycleSt) : CycleSt :=
  let st := { st with trace := st.trace ++ [{ method := "GET", path := "/categories" }] }
  match R.categoriesResp with
  | .ok cats => pullCategoriesLoop policy now cats st
  | .err _ => st

/-- The per-record loop of `pullInventoryItems` (storage.ts 536-538) with
    the enclosing try/catch of lines 531-542: a rejection from
    `handleRemoteInventoryItem` aborts the loop and appends one pull error. -/
def pullInventoryLoop (policy : ConflictPolicy) (now : Int) :
    List RemoteItem → CycleSt → CycleSt
  | [], st => st
  | r :: rest, st =>
      match handleRemoteInventoryItem policy now st r with
      | .ok st' => pullInventoryLoop policy now rest st'
      | .error e =>
          { st with errors := st.errors ++ ["Inventory pull error: " ++ e] }

/-- `pullInventoryItems` (storage.ts 530-543): GET /inventory?since=... and
    processing of each returned item; a failed response is silently
    skipped. -/
def pullInventoryItems (policy : ConflictPolicy) (R : Remote) (lastSync : Option Int)
    (now : Int) (st : CycleSt) : CycleSt :=
  let st := { st with trace :=
    st.trace ++ [{ method := "GET", path := "/inventory?since=" ++ isoOf lastSync }] }
  match R.inventorySince lastSync with
  | .ok items => pullInventoryLoop policy now items st
  | .err _ => st

/-- `pullCustomers` (storage.ts 545-558): the request is issued, but
    `handleRemoteCustomer` (storage.ts 675-678) is an unimplemented stub,
    so the response payload is never inspected and the store is untouched. -/
def pullCustomers (lastSync : Option Int) (st : CycleSt) : CycleSt :=
  { st with trace :=
    st.trace ++ [{ method := "GET", path := "/customers?since=" ++ isoOf lastSync }] }

/-- `pullOrders` (storage.ts 560-573): the request is issued, but
    `handleRemoteOrder` (storage.ts 680-683) is an unimplemented stub, so
    the response payload is never inspected and the store is untouched. -/
def pullOrders (lastSync : Option Int) (st : CycleSt) : CycleSt :=
  { st with trace :=
    st.trace ++ [{ method := "GET", path := "/orders?since=" ++ isoOf lastSync }] }

/-- `pullFromServer` (storage.ts 496-515): categories, then inventory
    items, then customers, then orders.  Its own try/catch is dead code in
    the model because each per-entity pull already catches internally. -/
def pullFromServer (policy : ConflictPolicy) (R : Remote) (lastSync : Option Int)
    (now : Int) (st : CycleSt) : CycleSt :=
  let st := pullCategories policy R now st
  let st := pullInventoryItems policy R lastSync now st
  let st := pullCustomers lastSync st
  let st := pullOrders lastSync st
  st

/-! ### Push phase -/

/-- Accumulator of the push loop over one table. -/
structure PushAcc (ρ : Type) where
  rows : List ρ
  synced : Nat
  errors : List String
  trace : List Request
  log : List SyncLogRow
deriving Repr

/-- The request `pushPendingItems` issues for one row (storage.ts 605-611):
    PUT to endpoint/remote_id when the row has a remote id, POST to the
    endpoint otherwise. -/
def pushReqOf {ρ : Type} [SyncRow ρ] (endpoint : String) (item : ρ) : Request :=
  match SyncRow.remoteId item with
  | some rid => { method := "PUT", path := endpoint ++ "/" ++ rid }
  | none => { method := "POST", path := endpoint }

/-- The per-item loop body of `pushPendingItems` (storage.ts 600-624): PUT
    to endpoint/remote_id when the row has a remote id, POST to the
    endpoint otherwise; on success-with-data mark synced using
    `response.data.id || item.remote_id`, on anything else mark failed and
    append the error string.  `apiRequest` never throws (it returns its
    failure variant, storage.ts 792-797), so the inner catch of lines
    620-623 is dead code. -/
def pushRowsLoop {ρ : Type} [SyncRow ρ] (R : Remote) (etype endpoint : String) (now : Int) :
    List ρ → PushAcc ρ → PushAcc ρ
  | [], acc => acc
  | item :: rest, acc =>
      let req : Request := pushReqOf endpoint item
      match R.pushOutcome req with
      | .ok dataId =>
          pushRowsLoop R etype endpoint now rest
            { rows := markItemSyncedRows acc.rows (SyncRow.rowId item)
                        (dataId.orElse (fun _ => SyncRow.remoteId item)) now,
              synced := acc.synced + 1, errors := acc.errors,
              trace := acc.trace ++ [req], log := acc.log }
      | .fail msg =>
          let msgStr := msg.getD "Unknown error"
          pushRowsLoop R etype endpoint now rest
            { rows := markItemSyncFailedRows acc.rows (SyncRow.rowId item),
              synced := acc.synced,
              errors := acc.errors ++
                ["Failed to sync " ++ etype ++ " " ++ SyncRow.rowId item ++ ": " ++ msgStr],
              trace := acc.trace ++ [req],
              log := acc.log ++ [mkFailLogRow etype (SyncRow.rowId item) msgStr now] }

/-- `pushPendingItems(entityType)` over one table's rows (storage.ts
    596-628): fetch up to 100 pending rows, then run the per-item loop on
    that snapshot. -/
def pushTableRows {ρ : Type} [SyncRow ρ] (R : Remote) (etype endpoint : String) (now : Int)
    (rows : List ρ) : PushAcc ρ :=
  let pendingItems := getPendingSyncItems rows 100
  pushRowsLoop R etype endpoint now pendingItems
    { rows := rows, synced := 0, errors := [], trace := [], log := [] }

/-- Database-level `pushPendingItems` for one entity type, reassembling the
    database and the cycle state. -/
def pushPendingItems (R : Remote) (now : Int) (t : EntityTable) (st : CycleSt) : CycleSt :=
  match t with
  | .categories =>
      let out := pushTableRows R "categories" (getEntityEndpoint .categories) now st.db.categories
      { st with db := { st.db with categories := out.rows, sync_log := st.db.sync_log ++ out.log },
                totalSynced := st.totalSynced + out.synced,
                errors := st.errors ++ out.errors, trace := st.trace ++ out.trace }
  | .inventory_items =>
      let out := pushTableRows R "inventory_items" (getEntityEndpoint .inventory_items) now
        st.db.inventory_items
      { st with db := { st.db with inventory_items := out.rows,
                                   sync_log := st.db.sync_log ++ out.log },
                totalSynced := st.totalSynced + out.synced,
                errors := st.errors ++ out.errors, trace := st.trace ++ out.trace }
  | .customers =>
      let out := pushTableRows R "customers" (getEntityEndpoint .customers) now st.db.customers
      { st with db := { st.db with customers := out.rows, sync_log := st.db.sync_log ++ out.log },
                totalSynced := st.totalSynced + out.synced,
                errors := st.errors ++ out.errors, trace := st.trace ++ out.trace }
  | .orders =>
      let out := pushTableRows R "orders" (getEntityEndpoint .orders) now st.db.orders
      { st with db := { st.db with orders := out.rows, sync_log := st.db.sync_log ++ out.log },
                totalSynced := st.totalSynced + out.synced,
                errors := st.errors ++ out.errors, trace := st.trace ++ out.trace }

/-- `pushToServer` (storage.ts 575-594): categories, then inventory items,
    then customers, then orders. -/
def pushToServer (R : Remote) (now : Int) (st : CycleSt) : CycleSt :=
  let st := pushPendingItems R now .categories st
  let st := pushPendingItems R now .inventory_items st
  let st := pushPendingItems R now .customers st
  let st := pushPendingItems R now .orders st
  st

/-- `performFullSync()` (storage.ts 456-494).  Pre-cycle checks: throw
    NotConfigured when no configuration is set, AlreadyInProgress when the
    in-progress flag is up — both before the flag is set and before any
    request or store operation.  Otherwise: set the flag, pull, push,
    record the wall-clock time as the last sync time (in memory and in the
    app_settings table), compute `success = (errors.length === 0)` and
    clear the flag in the finally block (so the returned service state has
    the flag down again).  The catch of lines 485-488 is dead code in the
    model because no awaited operation inside the try can reject. -/
def performFullSync (svc : SyncSvc) (db : Db) (R : Remote) (now : Int) :
    Except SyncError SyncResult × SyncSvc × Db × List Request :=
  match svc.syncConfig with
  | none => (.error .notConfigured, svc, db, [])
  | some cfg =>
      if svc.syncInProgress then
        (.error .alreadyInProgress, svc, db, [])
      else
        let st0 : CycleSt :=
          { db := db, totalSynced := 0, errors := [], conflicts := [], trace := [] }
        let st1 := pullFromServer cfg.conflictResolution R svc.lastSyncTime now st0
        let st2 := pushToServer R now st1
        let db2 := dbSetSetting st2.db "last_sync_time" (isoOf (some now)) now
        let result : SyncResult :=
          { success := st2.errors.isEmpty, totalSynced := st2.totalSynced,
            errors := st2.errors, conflicts := st2.conflicts }
        (.ok result, { svc with lastSyncTime := some now, syncInProgress := false }, db2,
          st2.trace)

/-! ### Local operation sequences on the inventory table

For the record-lifecycle claims the relevant operations on one table are
the local creation (`addInventoryItem`), the local edit
(`updateInventoryItem`), the two push outcomes (`markItemSynced`,
`markItemSyncFailed`) and the pull-driven overwrite (the remote-wins branch
of `handleDataConflict`: `updateInventoryItem` followed by
`markItemSynced`, storage.ts 718-739). -/

inductive LocalOp
  | addItem (item : MappedItem)
  | editItem (item : MappedItem) (now : Int)
  | pushSynced (id : String) (rid : Option String) (now : Int)
  | pushFailed (id : String) (now : Int)
  | pullOverwrite (item : MappedItem) (rid : String) (now : Int)

/-- Effect of one operation on the inventory_items rows.  A failing INSERT
    (duplicate id) rejects the promise and leaves the table unchanged. -/
def applyOp (rows : List ItemRow) : LocalOp → List ItemRow
  | .addItem item =>
      match addInventoryItemRows rows item with
      | .ok rows' => rows'
      | .error _ => rows
  | .editItem item now => updateItemRows rows item now
  | .pushSynced id rid now => markItemSyncedRows rows id rid now
  | .pushFailed id _ => markItemSyncFailedRows rows id
  | .pullOverwrite item rid now =>
      markItemSyncedRows (updateItemRows rows item now) item.id (some rid) now

/-- Effect of a sequence of operations, applied left to right. -/
def applyOps (rows : List ItemRow) (ops : List LocalOp) : List ItemRow :=
  ops.foldl applyOp rows

/-- Lookup of the first row with a given id. -/
def findRow (rows : List ItemRow) (id : String) : Option ItemRow :=
  rows.find? (fun r => r.id == id)

/-- Whether an operation is a local edit of the given record. -/
def isEditOf (id : String) : LocalOp → Prop
  | .editItem item _ => item.id = id
  | _ => False

/-! ### Derived predicates used by the statements -/

/-- First row of a table with the given id, through the generic interface. -/
def findSyncRow {ρ : Type} [SyncRow ρ] (rows : List ρ) (id : String) : Option ρ :=
  rows.find? (fun r => SyncRow.rowId r == id)

/-- The promise wrapper of `markItemSynced` (database.ts 453-472): the
    promise rejects only when `executeSql` reports an SQL error, and an
    UPDATE matching zero rows is not an SQL error, so the operation always
    resolves — in particular it does NOT fail when no row has the id. -/
def markItemSyncedE {ρ : Type} [SyncRow ρ] (rows : List ρ) (localId : String)
    (remoteId : Option String) (now : Int) : Except String (List ρ) :=
  Except.ok (markItemSyncedRows rows localId remoteId now)

/-- No row of the table is pending. -/
def rowsNonPending {ρ : Type} [SyncRow ρ] (rows : List ρ) : Prop :=
  ∀ r ∈ rows, SyncRow.syncStatus r ≠ SyncStatus.pending

/-- Number of pending rows of a table. -/
def pendCount {ρ : Type} [SyncRow ρ] (rows : List ρ) : Nat :=
  (rows.filter (fun r => SyncRow.syncStatus r == SyncStatus.pending)).length

/-- Some row of the categories table carries the id. -/
def catIdPresent (db : Db) (id : String) : Prop :=
  ∃ r ∈ db.categories, r.id = id

/-- The four pull requests of one cycle, in the order the pull phase issues
    them; only the categories request carries no since parameter. -/
def pullRequestsOf (lastSync : Option Int) : List Request :=
  [{ method := "GET", path := "/categories" },
   { method := "GET", path := "/inventory?since=" ++ isoOf lastSync },
   { method := "GET", path := "/customers?since=" ++ isoOf lastSync },
   { method := "GET", path := "/orders?since=" ++ isoOf lastSync }]

/-- The push requests one table contributes to a cycle: one request per
    fetched pending row (batch limit 100), in table order. -/
def pushRequestsFor {ρ : Type} [SyncRow ρ] (endpoint : String) (rows : List ρ) : List Request :=
  (getPendingSyncItems rows 100).map (pushReqOf endpoint)

/-- Whether a request has the shape of a push (POST to an entity endpoint,
    or PUT to an entity endpoint with a remote id). -/
def isPushRequest (req : Request) : Bool :=
  (req.method == "POST" || req.method == "PUT") &&
  (req.path.startsWith "/categories" || req.path.startsWith "/inventory" ||
   req.path.startsWith "/customers" || req.path.startsWith "/orders")

/-- Position of the entity a push request addresses, in the fixed entity
    order categories, inventory items, customers, orders. -/
def reqEndpointIdx (req : Request) : Nat :=
  if req.path.startsWith "/categories" then 0
  else if req.path.startsWith "/inventory" then 1
  else if req.path.startsWith "/customers" then 2
  else 3

/-- The success flag of an ok report is true exactly when its error list is
    empty; an error outcome does not satisfy the predicate. -/
def successIffNoErrors : Except SyncError SyncResult → Prop
  | .ok r => r.success = true ↔ r.errors = []
  | .error _ => False

/-! ### Concrete instances used by witnesses and counterexamples -/

/-- The empty local database. -/
def emptyDb : Db :=
  { categories := [], inventory_items := [], customers := [], orders := [],
    order_items := [], sync_log := [], app_settings := [] }

/-- A remote with no records that rejects every push. -/
def quietRemote : Remote :=
  { categoriesResp := .ok [], inventoryResp := .ok [], customersResp := .ok [],
    ordersResp := .ok [], pushOutcome := fun _ => .fail none }

/-- A configured sync with the client-wins policy. -/
def cfgClient : SyncConfig :=
  { apiBaseUrl := "https://api.example.com", apiKey := "k", autoSyncEnabled := false,
    syncIntervalMinutes := 15, conflictResolution := .clientWins }

/-- A configured sync with the server-wins policy. -/
def cfgServer : SyncConfig :=
  { cfgClient with conflictResolution := .serverWins }

/-- A configured sync with the newest-wins policy. -/
def cfgNewest : SyncConfig :=
  { cfgClient with conflictResolution := .newestWins }

/-- Service state with no configuration. -/
def svcUnconfigured : SyncSvc :=
  { syncConfig := none, syncInProgress := false, lastSyncTime := none }

/-- Configured service state with a cycle already running. -/
def svcBusy : SyncSvc :=
  { syncConfig := some cfgClient, syncInProgress := true, lastSyncTime := some 100 }

/-- Configured idle service state (client-wins). -/
def svcIdleClient : SyncSvc :=
  { syncConfig := some cfgClient, syncInProgress := false, lastSyncTime := none }

/-- Configured idle service state (server-wins) that has synced before. -/
def svcIdleServer : SyncSvc :=
  { syncConfig := some cfgServer, syncInProgress := false, lastSyncTime := some 500000 }

/-- Configured idle service state (newest-wins). -/
def svcIdleNewest : SyncSvc :=
  { syncConfig := some cfgNewest, syncInProgress := false, lastSyncTime := none }

/-- Local inventory row of the claim-C2 scenario: id a1, quantity 5,
    updated at the reference time t0 = 1000000, already synced. -/
def c2LocalRow : ItemRow :=
  { id := "a1", name := "Widget", description := none, category_id := none,
    quantity := 5, unit_price := 10, location := none, barcode := none,
    image_uri := none, minimum_stock := none, created_at := 0,
    updated_at := 1000000, sync_status := .synced, last_synced_at := some 1000000,
    remote_id := some "a1", version := 2 }

/-- Remote payload of the claim-C2 scenario: id a1, quantity 9, updated at
    t0 + 60s. -/
def c2RemoteItem : RemoteItem :=
  { id := "a1", name := "Widget", description := none, category_id := "c1",
    quantity := 9, unit_price := 10, location := none, barcode := none,
    image_uri := none, minimum_stock := none, created_at := 0,
    updated_at := 1060000, version := 3 }

/-- Cycle state holding only the claim-C2 local row. -/
def c2St : CycleSt :=
  { db := { emptyDb with inventory_items := [c2LocalRow] },
    totalSynced := 0, errors := [], conflicts := [], trace := [] }

/-- A category row that exists locally and is already synced. -/
def c1CatRow : CategoryRow :=
  { id := "c1", name := "Electronics", description := none, color := "#4F46E5",
    created_at := 0, updated_at := 0, sync_status := .synced,
    last_synced_at := some 400000, remote_id := some "c1", version := 1 }

/-- The same category as the remote serves it, unchanged long before the
    last sync time. -/
def c1RemoteCat : RemoteCategory :=
  { id := "c1", name := "Electronics", description := none, color := "#4F46E5",
    updated_at := 400000, version := 1 }

/-- Remote serving exactly one (old, unchanged) category. -/
def oneCatRemote : Remote :=
  { quietRemote with categoriesResp := .ok [c1RemoteCat] }

/-- Database already holding that category. -/
def oneCatDb : Db :=
  { emptyDb with categories := [c1CatRow] }

/-- A stale remote category (updated at time 0, long before the last sync
    time of `svcIdleServer`) that is absent locally. -/
def staleRemoteCat : RemoteCategory :=
  { id := "cold", name := "Old", description := none, color := "#000000",
    updated_at := 0, version := 1 }

/-- Remote serving only the stale category. -/
def staleCatRemote : Remote :=
  { quietRemote with categoriesResp := .ok [staleRemoteCat] }

/-- Pending inventory row used by lifecycle witnesses. -/
def wPendingRow : ItemRow :=
  { id := "a1", name := "Widget", description := none, category_id := none,
    quantity := 5, unit_price := 10, location := none, barcode := none,
    image_uri := none, minimum_stock := none, created_at := 0,
    updated_at := 1000, sync_status := .pending, last_synced_at := none,
    remote_id := none, version := 2 }

/-- The same row after its push failed. -/
def wFailedRow : ItemRow :=
  { wPendingRow with sync_status := .failed }

/-- A local edit payload for the same record. -/
def wEditItem : MappedItem :=
  { id := "a1", name := "Widget v2", description := "", category := "Unknown",
    quantity := 6, unitPrice := 10, location := "", barcode := none,
    imageUri := none, minimumStock := none, createdAt := 0, updatedAt := 1000 }

/-! ## Shared lemmas -/

theorem findRow_eq_findSyncRow (rows : List ItemRow) (id : String) :
    findRow rows id = findSyncRow rows id := rfl

theorem findSyncRow_map {ρ : Type} [SyncRow ρ] (f : ρ → ρ)
    (hf : ∀ r, SyncRow.rowId (f r) = SyncRow.rowId r) (id : String) (rows : List ρ) :
    findSyncRow (rows.map f) id = (findSyncRow rows id).map f := by
  unfold findSyncRow
  rw [List.find?_map]
  have hp : ((fun r => SyncRow.rowId r == id) ∘ f) = (fun r : ρ => SyncRow.rowId r == id) := by
    funext r
    simp [Function.comp, hf r]
  rw [hp]

theorem findSyncRow_mem {ρ : Type} [SyncRow ρ] {rows : List ρ} {id : String} {r : ρ}
    (h : findSyncRow rows id = some r) : r ∈ rows ∧ SyncRow.rowId r = id := by
  refine ⟨List.mem_of_find?_eq_some h, ?_⟩
  have := List.find?_some h
  simpa using this

theorem findSyncRow_markSyncedRows {ρ : Type} [SyncRow ρ] {rows : List ρ} {id : String}
    {r : ρ} (rid : Option String) (now : Int) (h : findSyncRow rows id = some r) :
    findSyncRow (markItemSyncedRows rows id rid now) id =
      some (SyncRow.markSynced r rid now) := by
  unfold markItemSyncedRows
  rw [findSyncRow_map]
  · rw [h]
    have hid : SyncRow.rowId r = id := (findSyncRow_mem h).2
    simp [hid]
  · intro x
    by_cases hx : SyncRow.rowId x == id
    · simp [hx, SyncRow.rowId_markSynced]
    · simp [hx]

theorem findSyncRow_markFailedRows {ρ : Type} [SyncRow ρ] {rows : List ρ} {id : String}
    {r : ρ} (h : findSyncRow rows id = some r) :
    findSyncRow (markItemSyncFailedRows rows id) id =
      some (SyncRow.setStatus r SyncStatus.failed) := by
  unfold markItemSyncFailedRows
  rw [findSyncRow_map]
  · rw [h]
    have hid : SyncRow.rowId r = id := (findSyncRow_mem h).2
    simp [hid]
  · intro x
    by_cases hx : SyncRow.rowId x == id
    · simp [hx, SyncRow.rowId_setStatus]
    · simp [hx]

theorem findSyncRow_of_forall_ne {ρ : Type} [SyncRow ρ] {rows : List ρ} {id : String}
    (h : ∀ r ∈ rows, SyncRow.rowId r ≠ id) : findSyncRow rows id = none := by
  unfold findSyncRow
  rw [List.find?_eq_none]
  intro r hr
  simp [h r hr]

theorem markItemSyncedRows_of_absent {ρ : Type} [SyncRow ρ] {rows : List ρ} {id : String}
    (rid : Option String) (now : Int) (h : ∀ r ∈ rows, SyncRow.rowId r ≠ id) :
    markItemSyncedRows rows id rid now = rows := by
  unfold markItemSyncedRows
  have hcong : ∀ r ∈ rows,
      (if (SyncRow.rowId r == id) = true then SyncRow.markSynced r rid now else r) =
        (fun r : ρ => r) r := by
    intro r hr
    simp [h r hr]
  rw [List.map_congr_left hcong, List.map_id']

/-! ## Claim C1 — conflict resolver as a function of (policy, local, remote) -/

/-- C1: the conflict-resolution step is a function of the policy and of the
    two records' updatedAt values: ServerWins always chooses the remote
    record, ClientWins always chooses the local record, and NewestWins
    chooses the remote record exactly when the remote updatedAt is strictly
    greater than the local updatedAt, so equal timestamps favor the local
    record. -/
theorem resolveUseRemote_policy_spec (l r : Int) :
    resolveUseRemote .serverWins (some l) (some r) = true ∧
    resolveUseRemote .clientWins (some l) (some r) = false ∧
    (resolveUseRemote .newestWins (some l) (some r) = true ↔ l < r) ∧
    resolveUseRemote .newestWins (some l) (some l) = false := by
  refine ⟨rfl, rfl, ?_, ?_⟩
  · simp [resolveUseRemote, jsDateGt]
  · simp [resolveUseRemote, jsDateGt]

/-! ## Claim C10 — clearAllData frame -/

/-- C10: clearAllData empties the five entity tables and the sync log but
    leaves the app_settings table unchanged, so the persisted sync
    configuration and last-sync time survive it. -/
theorem clearAllData_preserves_settings (db : Db) :
    (clearAllData db).order_items = [] ∧
    (clearAllData db).orders = [] ∧
    (clearAllData db).customers = [] ∧
    (clearAllData db).inventory_items = [] ∧
    (clearAllData db).categories = [] ∧
    (clearAllData db).sync_log = [] ∧
    (clearAllData db).app_settings = db.app_settings ∧
    getSetting (clearAllData db) "sync_config" = getSetting db "sync_config" ∧
    getSetting (clearAllData db) "last_sync_time" = getSetting db "last_sync_time" :=
  ⟨rfl, rfl, rfl, rfl, rfl, rfl, rfl, rfl, rfl⟩

/-! ## Claim C8 — markSynced (corrected: no NotFoundError on absent id) -/

/-- C8 counterexample: calling markItemSynced with a localId that no record
    carries does NOT fail with a NotFoundError — the UPDATE matches zero
    rows, the promise resolves normally and the table is unchanged. -/
theorem markItemSynced_absent_id_no_error :
    markItemSyncedE [wPendingRow] "zz" (some "r1") 7 = .ok [wPendingRow] := rfl

/-- C8 (amended): markSynced sets sync status Synced, the given remoteId
    and lastSyncedAt = now on the record with the given localId; when no
    record has the localId the operation succeeds as a no-op instead of
    failing with a NotFoundError. -/
theorem markItemSynced_spec {ρ : Type} [SyncRow ρ] (rows : List ρ) (id : String)
    (rid : Option String) (now : Int) :
    (∀ r, findSyncRow rows id = some r →
        findSyncRow (markItemSyncedRows rows id rid now) id =
            some (SyncRow.markSynced r rid now) ∧
        SyncRow.syncStatus (SyncRow.markSynced r rid now) = SyncStatus.synced ∧
        SyncRow.remoteId (SyncRow.markSynced r rid now) = rid) ∧
    (findSyncRow rows id = none → markItemSyncedE rows id rid now = .ok rows) := by
  constructor
  · intro r h
    exact ⟨findSyncRow_markSyncedRows rid now h, SyncRow.status_markSynced r rid now,
      SyncRow.remoteId_markSynced r rid now⟩
  · intro h
    unfold markItemSyncedE
    rw [markItemSyncedRows_of_absent]
    intro r hr
    intro hid
    have : (fun r => SyncRow.rowId r == id) r = true := by simp [hid]
    have hmem := List.find?_eq_none.mp h r hr
    exact hmem this

/-- C8 witness: the amended markSynced behavior evaluated on a concrete
    one-row table whose row carries the looked-up id. -/
theorem markItemSynced_spec_witness :
    findSyncRow [wPendingRow] "a1" = some wPendingRow ∧
    findSyncRow (markItemSyncedRows [wPendingRow] "a1" (some "r1") 7) "a1" =
      some (SyncRow.markSynced wPendingRow (some "r1") 7) :=
  ⟨rfl, ((markItemSynced_spec [wPendingRow] "a1" (some "r1") 7).1 wPendingRow rfl).1⟩

/-! ## Claim C2 — NewestWins pull scenario (code bug) -/

/-- C2 evaluation at the claimed scenario: local item a1 with quantity 5
    updated at t0, remote payload a1 with quantity 9 updated at t0 + 60s,
    policy NewestWins.  The claim (and the spec scenario) expect quantity 9
    and status Synced; the code instead leaves the quantity at 5 and records
    a conflict, because `handleDataConflict` reads `localData.updated_at`
    while the local object only carries the camelCase `updatedAt`
    (database.ts 323-336), so the comparison at storage.ts 712-714 is
    against an Invalid Date and is always false. -/
theorem handleRemoteInventoryItem_newestWins_drops_remote :
    (handleRemoteInventoryItem .newestWins 1060000 c2St c2RemoteItem).toOption.map
        (fun st => (st.db.inventory_items.map (fun r => (r.quantity, r.sync_status)),
                    st.totalSynced, st.conflicts.length))
      = some ([(5, SyncStatus.synced)], 0, 1) := rfl

/-! ## Claim C3 — pre-cycle rejections of performFullSync -/

/-- C3: performFullSync fails immediately — leaving the service state, the
    database and the request trace untouched — with the NotConfigured error
    when no sync configuration is set, and with the AlreadyInProgress error
    when a cycle is already running; in the latter case no state of the
    second call is recorded, so the running cycle is unaffected. -/
theorem performFullSync_precycle_rejections (svc : SyncSvc) (db : Db) (R : Remote) (now : Int) :
    (svc.syncConfig = none →
      performFullSync svc db R now = (.error .notConfigured, svc, db, [])) ∧
    (∀ cfg, svc.syncConfig = some cfg → svc.syncInProgress = true →
      performFullSync svc db R now = (.error .alreadyInProgress, svc, db, [])) := by
  constructor
  · intro h
    simp [performFullSync, h]
  · intro cfg h hprog
    simp [performFullSync, h, hprog]

/-- C3 witness: the two rejections evaluated at concrete states — an
    unconfigured service and a configured service with a running cycle. -/
theorem performFullSync_precycle_rejections_witness :
    svcUnconfigured.syncConfig = none ∧
    performFullSync svcUnconfigured emptyDb quietRemote 5 =
      (.error .notConfigured, svcUnconfigured, emptyDb, []) ∧
    svcBusy.syncConfig = some cfgClient ∧
    svcBusy.syncInProgress = true ∧
    performFullSync svcBusy emptyDb quietRemote 5 =
      (.error .alreadyInProgress, svcBusy, emptyDb, []) :=
  ⟨rfl, (performFullSync_precycle_rejections svcUnconfigured emptyDb quietRemote 5).1 rfl,
   rfl, rfl,
   (performFullSync_precycle_rejections svcBusy emptyDb quietRemote 5).2 cfgClient rfl rfl⟩

/-! ## Claims C9 and C5 — record lifecycle over local operation sequences -/

theorem findRow_map (f : ItemRow → ItemRow) (hf : ∀ r, (f r).id = r.id) (id : String)
    (rows : List ItemRow) : findRow (rows.map f) id = (findRow rows id).map f := by
  rw [findRow_eq_findSyncRow, findRow_eq_findSyncRow]
  exact findSyncRow_map f (fun r => hf r) id rows

theorem findRow_append_left {rows : List ItemRow} {id : String} {r : ItemRow}
    (h : findRow rows id = some r) (l : List ItemRow) :
    findRow (rows ++ l) id = some r := by
  unfold findRow at h ⊢
  rw [List.find?_append, h]
  rfl

theorem findRow_updateItemRows (rows : List ItemRow) (item : MappedItem) (now : Int)
    (id : String) {r : ItemRow} (h : findRow rows id = some r) :
    findRow (updateItemRows rows item now) id =
      some (if r.id == item.id then
        { r with name := item.name, description := some item.description,
                 category_id := some item.category, quantity := item.quantity,
                 unit_price := item.unitPrice, location := some item.location,
                 barcode := item.barcode, image_uri := item.imageUri,
                 minimum_stock := item.minimumStock, updated_at := now,
                 sync_status := .pending, version := r.version + 1 }
      else r) := by
  unfold updateItemRows
  rw [findRow_map _ ?hf id rows, h]
  case hf =>
    intro x
    by_cases hx : x.id == item.id
    · simp [hx]
    · simp [hx]
  rfl

theorem findRow_markItemSyncedRows (rows : List ItemRow) (mid : String)
    (rid : Option String) (now : Int) (id : String) {r : ItemRow}
    (h : findRow rows id = some r) :
    findRow (markItemSyncedRows rows mid rid now) id =
      some (if r.id == mid then
        { r with sync_status := .synced, last_synced_at := some now, remote_id := rid }
      else r) := by
  unfold markItemSyncedRows
  rw [findRow_map _ ?hf id rows, h]
  case hf =>
    intro x
    by_cases hx : SyncRow.rowId x == mid
    · rw [if_pos hx]
      exact SyncRow.rowId_markSynced x rid now
    · simp [hx]
  rfl

theorem findRow_markItemSyncFailedRows (rows : List ItemRow) (mid : String)
    (id : String) {r : ItemRow} (h : findRow rows id = some r) :
    findRow (markItemSyncFailedRows rows mid) id =
      some (if r.id == mid then { r with sync_status := .failed } else r) := by
  unfold markItemSyncFailedRows
  rw [findRow_map _ ?hf id rows, h]
  case hf =>
    intro x
    by_cases hx : SyncRow.rowId x == mid
    · rw [if_pos hx]
      exact SyncRow.rowId_setStatus x SyncStatus.failed
    · simp [hx]
  rfl

theorem applyOp_find_version_mono (rows : List ItemRow) (op : LocalOp) (id : String)
    (r : ItemRow) (h : findRow rows id = some r) :
    ∃ r', findRow (applyOp rows op) id = some r' ∧ r.version ≤ r'.version := by
  cases op with
  | addItem item =>
      unfold applyOp addInventoryItemRows
      by_cases hex : rows.any (fun x => x.id == item.id)
      · simp only [hex, if_pos]
        exact ⟨r, h, le_refl _⟩
      · simp only [hex, if_neg, Bool.false_eq_true, not_false_iff]
        exact ⟨r, findRow_append_left h _, le_refl _⟩
  | editItem item now =>
      refine ⟨_, findRow_updateItemRows rows item now id h, ?_⟩
      by_cases hx : r.id == item.id
      · simp [hx]
      · simp [hx]
  | pushSynced mid rid now =>
      refine ⟨_, findRow_markItemSyncedRows rows mid rid now id h, ?_⟩
      by_cases hx : r.id == mid
      · simp [hx]
      · simp [hx]
  | pushFailed mid now =>
      refine ⟨_, findRow_markItemSyncFailedRows rows mid id h, ?_⟩
      by_cases hx : r.id == mid
      · simp [hx]
      · simp [hx]
  | pullOverwrite item rid now =>
      have h1 := findRow_updateItemRows rows item now id h
      refine ⟨_, findRow_markItemSyncedRows _ item.id (some rid) now id h1, ?_⟩
      by_cases hx : r.id == item.id
      · simp [hx]
      · simp [hx]

theorem applyOps_find_version_mono (ops : List LocalOp) :
    ∀ (rows : List ItemRow) (id : String) (r : ItemRow), findRow rows id = some r →
      ∃ r', findRow (applyOps rows ops) id = some r' ∧ r.version ≤ r'.version := by
  induction ops with
  | nil => exact fun rows id r h => ⟨r, h, le_refl _⟩
  | cons op ops ih =>
      intro rows id r h
      obtain ⟨r1, h1, hle1⟩ := applyOp_find_version_mono rows op id r h
      obtain ⟨r2, h2, hle2⟩ := ih (applyOp rows op) id r1 h1
      exact ⟨r2, h2, le_trans hle1 hle2⟩

/-- C9: across any sequence of local creations, local edits, push outcomes
    and pull-driven overwrites, a record's version never decreases; a local
    edit increments the version by one and sets the status to Pending, and a
    local creation inserts the record with version 1 and status Pending. -/
theorem inventory_version_monotone :
    (∀ (ops : List LocalOp) (rows : List ItemRow) (id : String) (r r' : ItemRow),
        findRow rows id = some r → findRow (applyOps rows ops) id = some r' →
        r.version ≤ r'.version) ∧
    (∀ (rows : List ItemRow) (item : MappedItem) (now : Int) (r : ItemRow),
        findRow rows item.id = some r →
        ∃ r', findRow (updateItemRows rows item now) item.id = some r' ∧
          r'.version = r.version + 1 ∧ r'.sync_status = .pending) ∧
    (∀ (rows : List ItemRow) (item : MappedItem) (rows' : List ItemRow),
        addInventoryItemRows rows item = .ok rows' →
        ∃ r', findRow rows' item.id = some r' ∧ r'.version = 1 ∧
          r'.sync_status = .pending) := by
  refine ⟨?_, ?_, ?_⟩
  · intro ops rows id r r' h h'
    obtain ⟨r2, h2, hle⟩ := applyOps_find_version_mono ops rows id r h
    rw [h'] at h2
    exact (Option.some.inj h2) ▸ hle
  · intro rows item now r h
    have h2 : List.find? (fun x : ItemRow => x.id == item.id) rows = some r := h
    have hid := List.find?_some h2
    refine ⟨_, findRow_updateItemRows rows item now item.id h, ?_, ?_⟩
    · rw [if_pos hid]
    · rw [if_pos hid]
  · intro rows item rows' h
    unfold addInventoryItemRows at h
    by_cases hex : rows.any (fun x => x.id == item.id)
    · rw [if_pos hex] at h
      exact absurd h (by simp)
    · rw [if_neg hex] at h
      have hrows : rows' = rows ++ [newItemRow item] := (Except.ok.inj h).symm
      subst hrows
      have hnone : findRow rows item.id = none := by
        unfold findRow
        rw [List.find?_eq_none]
        intro x hx
        intro hxx
        exact hex (List.any_eq_true.mpr ⟨x, hx, hxx⟩)
      have hfind : findRow (rows ++ [newItemRow item]) item.id = some (newItemRow item) := by
        unfold findRow at hnone ⊢
        rw [List.find?_append, hnone]
        simp [newItemRow]
      exact ⟨newItemRow item, hfind, rfl, rfl⟩

/-- C9 witness: a pending row with version 2 survives a failed push with
    its version intact (2 ≤ 2), evaluated concretely. -/
theorem inventory_version_monotone_witness :
    findRow [wPendingRow] "a1" = some wPendingRow ∧
    findRow (applyOps [wPendingRow] [LocalOp.pushFailed "a1" 5]) "a1" = some wFailedRow ∧
    wPendingRow.version ≤ wFailedRow.version :=
  ⟨rfl, rfl, inventory_version_monotone.1 [LocalOp.pushFailed "a1" 5] [wPendingRow] "a1"
      wPendingRow wFailedRow rfl rfl⟩

theorem not_mem_pending_ids {rows : List ItemRow} {id : String}
    (h : ∀ r ∈ rows, r.id = id → r.sync_status ≠ .pending) (limit : Nat) :
    id ∉ (getPendingSyncItems rows limit).map (fun r : ItemRow => r.id) := by
  intro hmem
  obtain ⟨r, hr, hid⟩ := List.mem_map.mp hmem
  have hr1 : r ∈ rows.filter (fun x => SyncRow.syncStatus x == SyncStatus.pending) :=
    List.mem_of_mem_take hr
  have hmemrows : r ∈ rows := List.mem_of_mem_filter hr1
  have hpend : r.sync_status = .pending := by
    have := List.of_mem_filter hr1
    simpa [instSyncRowItemRow] using this
  exact h r hmemrows hid hpend

theorem markFailed_id_nonpending (rows : List ItemRow) (id : String) :
    ∀ r ∈ markItemSyncFailedRows rows id, r.id = id → r.sync_status ≠ .pending := by
  intro r hr hid
  obtain ⟨x, hx, hgx⟩ := List.mem_map.mp hr
  by_cases hxx : SyncRow.rowId x == id
  · rw [if_pos hxx] at hgx
    rw [← hgx]
    simp [instSyncRowItemRow]
  · rw [if_neg hxx] at hgx
    subst hgx
    exact absurd (by simp [instSyncRowItemRow, hid]) hxx

theorem map_preserves_nonpending (g : ItemRow → ItemRow) (rows : List ItemRow) (id : String)
    (hid : ∀ x, (g x).id = x.id)
    (hg : ∀ x, x.id = id → (g x).sync_status ≠ .pending ∨ g x = x)
    (hex : ∃ r ∈ rows, r.id = id)
    (hnp : ∀ r ∈ rows, r.id = id → r.sync_status ≠ .pending) :
    (∃ r ∈ rows.map g, r.id = id) ∧
    (∀ r ∈ rows.map g, r.id = id → r.sync_status ≠ .pending) := by
  obtain ⟨w, hw, hwid⟩ := hex
  constructor
  · exact ⟨g w, List.mem_map_of_mem g hw, by rw [hid w, hwid]⟩
  · intro r hr hrid
    obtain ⟨x, hx, hgx⟩ := List.mem_map.mp hr
    subst hgx
    have hxid : x.id = id := by rw [← hid x, hrid]
    rcases hg x hxid with h1 | h2
    · exact h1
    · rw [h2]
      exact hnp x hx hxid

theorem applyOp_preserves_nonpending (rows : List ItemRow) (op : LocalOp) (id : String)
    (hop : ¬ isEditOf id op)
    (hex : ∃ r ∈ rows, r.id = id)
    (hnp : ∀ r ∈ rows, r.id = id → r.sync_status ≠ .pending) :
    (∃ r ∈ applyOp rows op, r.id = id) ∧
    (∀ r ∈ applyOp rows op, r.id = id → r.sync_status ≠ .pending) := by
  cases op with
  | addItem item =>
      have hred : applyOp rows (.addItem item) =
          if rows.any (fun x => x.id == item.id) then rows else rows ++ [newItemRow item] := by
        simp only [applyOp, addInventoryItemRows]
        by_cases hadd : rows.any (fun x => x.id == item.id)
        · rw [if_pos hadd, if_pos hadd]
        · rw [if_neg hadd, if_neg hadd]
      rw [hred]
      by_cases hadd : rows.any (fun x => x.id == item.id)
      · rw [if_pos hadd]
        exact ⟨hex, hnp⟩
      · rw [if_neg hadd]
        have hne : item.id ≠ id := by
          intro heq
          obtain ⟨w, hw, hwid⟩ := hex
          apply hadd
          refine List.any_eq_true.mpr ⟨w, hw, ?_⟩
          simp [hwid, heq]
        constructor
        · obtain ⟨w, hw, hwid⟩ := hex
          exact ⟨w, List.mem_append_left _ hw, hwid⟩
        · intro r hr hrid
          rcases List.mem_append.mp hr with h1 | h2
          · exact hnp r h1 hrid
          · exfalso
            have hrnew : r = newItemRow item := by simpa using h2
            apply hne
            rw [← hrid, hrnew]
            rfl
  | editItem item now =>
      have hne : item.id ≠ id := hop
      refine map_preserves_nonpending _ rows id ?_ ?_ hex hnp
      · intro x
        by_cases hxx : x.id == item.id
        · simp [hxx]
        · simp [hxx]
      · intro x hxid
        right
        have hxx : (x.id == item.id) = false := by
          rw [hxid]
          exact beq_eq_false_iff_ne.mpr (fun hc => hne hc.symm)
        simp [hxx]
  | pushSynced mid rid now =>
      refine map_preserves_nonpending _ rows id ?_ ?_ hex hnp
      · intro x
        by_cases hxx : SyncRow.rowId x == mid
        · have h2 : x.id = mid := eq_of_beq hxx
          simp [hxx, instSyncRowItemRow, h2]
        · simp [hxx]
      · intro x _
        by_cases hxx : SyncRow.rowId x == mid
        · left
          have h2 : x.id = mid := eq_of_beq hxx
          simp [hxx, instSyncRowItemRow, h2]
        · right
          simp [hxx]
  | pushFailed mid now =>
      refine map_preserves_nonpending _ rows id ?_ ?_ hex hnp
      · intro x
        by_cases hxx : SyncRow.rowId x == mid
        · have h2 : x.id = mid := eq_of_beq hxx
          simp [hxx, instSyncRowItemRow, h2]
        · simp [hxx]
      · intro x _
        by_cases hxx : SyncRow.rowId x == mid
        · left
          have h2 : x.id = mid := eq_of_beq hxx
          simp [hxx, instSyncRowItemRow, h2]
        · right
          simp [hxx]
  | pullOverwrite item rid now =>
      have hred : applyOp rows (.pullOverwrite item rid now) =
          rows.map ((fun x : ItemRow =>
              if SyncRow.rowId x == item.id then SyncRow.markSynced x (some rid) now else x) ∘
            (fun x : ItemRow => if x.id == item.id then
              { x with name := item.name, description := some item.description,
                       category_id := some item.category, quantity := item.quantity,
                       unit_price := item.unitPrice, location := some item.location,
                       barcode := item.barcode, image_uri := item.imageUri,
                       minimum_stock := item.minimumStock, updated_at := now,
                       sync_status := .pending, version := x.version + 1 }
            else x)) := by
        simp only [applyOp, markItemSyncedRows, updateItemRows, List.map_map]
      rw [hred]
      refine map_preserves_nonpending _ rows id ?_ ?_ hex hnp
      · intro x
        by_cases hxx : x.id == item.id
        · have h2 : x.id = item.id := eq_of_beq hxx
          simp [hxx, instSyncRowItemRow, Function.comp, h2]
        · simp [hxx, Function.comp, instSyncRowItemRow]
      · intro x _
        by_cases hxx : x.id == item.id
        · left
          have h2 : x.id = item.id := eq_of_beq hxx
          simp [Function.comp, hxx, instSyncRowItemRow, h2]
        · right
          simp [Function.comp, hxx, instSyncRowItemRow]

theorem applyOps_preserves_nonpending (ops : List LocalOp) :
    ∀ (rows : List ItemRow) (id : String),
      (∀ op ∈ ops, ¬ isEditOf id op) →
      (∃ r ∈ rows, r.id = id) →
      (∀ r ∈ rows, r.id = id → r.sync_status ≠ .pending) →
      (∃ r ∈ applyOps rows ops, r.id = id) ∧
      (∀ r ∈ applyOps rows ops, r.id = id → r.sync_status ≠ .pending) := by
  induction ops with
  | nil => exact fun rows id _ hex hnp => ⟨hex, hnp⟩
  | cons op ops ih =>
      intro rows id hops hex hnp
      have hop : ¬ isEditOf id op := hops op (List.mem_cons_self op ops)
      obtain ⟨hex1, hnp1⟩ := applyOp_preserves_nonpending rows op id hop hex hnp
      exact ih (applyOp rows op) id (fun o ho => hops o (List.mem_cons_of_mem op ho)) hex1 hnp1

/-- C5: a Pending record whose push fails is marked Failed and no longer
    appears in any getPending result; across any further sequence of
    operations that contains no local edit of the record it stays out of
    every getPending result; a local edit sets its status back to Pending,
    after which it appears in the getPending result again (with a limit
    covering the table). -/
theorem failed_record_excluded_until_reedit :
    (∀ (rows : List ItemRow) (id : String) (r : ItemRow) (limit : Nat),
        findRow rows id = some r →
        ∃ r', findRow (markItemSyncFailedRows rows id) id = some r' ∧
          r'.sync_status = .failed ∧
          id ∉ (getPendingSyncItems (markItemSyncFailedRows rows id) limit).map
            (fun x : ItemRow => x.id)) ∧
    (∀ (ops : List LocalOp) (rows : List ItemRow) (id : String),
        (∀ op ∈ ops, ¬ isEditOf id op) →
        (∃ r ∈ rows, r.id = id) →
        (∀ r ∈ rows, r.id = id → r.sync_status ≠ .pending) →
        ∀ limit, id ∉ (getPendingSyncItems (applyOps rows ops) limit).map
          (fun x : ItemRow => x.id)) ∧
    (∀ (rows : List ItemRow) (item : MappedItem) (now : Int) (r : ItemRow),
        findRow rows item.id = some r →
        ∃ r', findRow (updateItemRows rows item now) item.id = some r' ∧
          r'.sync_status = .pending ∧
          item.id ∈ (getPendingSyncItems (updateItemRows rows item now)
            (updateItemRows rows item now).length).map (fun x : ItemRow => x.id)) := by
  refine ⟨?_, ?_, ?_⟩
  · intro rows id r limit h
    have h2 : List.find? (fun x : ItemRow => x.id == id) rows = some r := h
    have hid := List.find?_some h2
    refine ⟨_, findRow_markItemSyncFailedRows rows id id h, ?_, ?_⟩
    · rw [if_pos hid]
    · exact not_mem_pending_ids (markFailed_id_nonpending rows id) limit
  · intro ops rows id hops hex hnp limit
    obtain ⟨_, hnp'⟩ := applyOps_preserves_nonpending ops rows id hops hex hnp
    exact not_mem_pending_ids hnp' limit
  · intro rows item now r h
    have h2 : List.find? (fun x : ItemRow => x.id == item.id) rows = some r := h
    have hid := List.find?_some h2
    refine ⟨_, findRow_updateItemRows rows item now item.id h, ?_, ?_⟩
    · rw [if_pos hid]
    · have hfind := findRow_updateItemRows rows item now item.id h
      rw [if_pos hid] at hfind
      have hprops : ∃ r', findRow (updateItemRows rows item now) item.id = some r' ∧
          r'.sync_status = SyncStatus.pending ∧ r'.id = r.id := ⟨_, hfind, rfl, rfl⟩
      obtain ⟨r', hfind', hstat', hid'⟩ := hprops
      have hf2 : List.find? (fun x : ItemRow => x.id == item.id)
          (updateItemRows rows item now) = some r' := hfind'
      have hmem : r' ∈ updateItemRows rows item now := List.mem_of_find?_eq_some hf2
      have hmemf : r' ∈ (updateItemRows rows item now).filter
          (fun x => SyncRow.syncStatus x == SyncStatus.pending) := by
        refine List.mem_filter.mpr ⟨hmem, ?_⟩
        simp [instSyncRowItemRow, hstat']
      have hlen : ((updateItemRows rows item now).filter
          (fun x => SyncRow.syncStatus x == SyncStatus.pending)).length ≤
            (updateItemRows rows item now).length :=
        List.length_filter_le _ _
      have hmemt : r' ∈ getPendingSyncItems (updateItemRows rows item now)
          (updateItemRows rows item now).length := by
        unfold getPendingSyncItems
        rw [List.take_of_length_le hlen]
        exact hmemf
      refine List.mem_map.mpr ⟨r', hmemt, ?_⟩
      rw [hid']
      exact eq_of_beq hid

/-- C5 witness: the push-failure clause evaluated on a concrete one-row
    table — the failed row is excluded from the pending query. -/
theorem failed_record_excluded_until_reedit_witness :
    findRow [wPendingRow] "a1" = some wPendingRow ∧
    findRow (markItemSyncFailedRows [wPendingRow] "a1") "a1" = some wFailedRow ∧
    wFailedRow.sync_status = SyncStatus.failed ∧
    "a1" ∉ (getPendingSyncItems (markItemSyncFailedRows [wPendingRow] "a1") 10).map
      (fun x : ItemRow => x.id) := by
  obtain ⟨r', hfind, hstat, hmem⟩ :=
    failed_record_excluded_until_reedit.1 [wPendingRow] "a1" wPendingRow 10 rfl
  have heq : r' = wFailedRow := by
    have h0 : findRow (markItemSyncFailedRows [wPendingRow] "a1") "a1" = some wFailedRow := rfl
    rw [h0] at hfind
    exact (Option.some.inj hfind).symm
  subst heq
  exact ⟨rfl, hfind, hstat, hmem⟩

/-! ## Claim C7 — every accepted cycle completes and records its time -/

theorem performFullSync_ok_eq (svc : SyncSvc) (db : Db) (R : Remote) (now : Int)
    (cfg : SyncConfig) (hc : svc.syncConfig = some cfg) (hp : svc.syncInProgress = false) :
    performFullSync svc db R now =
      (let st2 := pushToServer R now (pullFromServer cfg.conflictResolution R svc.lastSyncTime
          now { db := db, totalSynced := 0, errors := [], conflicts := [], trace := [] });
        (Except.ok { success := st2.errors.isEmpty, totalSynced := st2.totalSynced,
                     errors := st2.errors, conflicts := st2.conflicts },
         { svc with lastSyncTime := some now, syncInProgress := false },
         dbSetSetting st2.db "last_sync_time" (isoOf (some now)) now,
         st2.trace)) := by
  simp only [performFullSync, hc]
  rw [if_neg]
  simp [hp]

theorem getSetting_dbSetSetting (db : Db) (k v : String) (now : Int) :
    getSetting (dbSetSetting db k v now) k = some v := by
  unfold getSetting dbSetSetting
  simp only []
  rw [List.find?_append]
  have h1 : (db.app_settings.filter (fun r => r.key != k)).find? (fun r => r.key == k) = none := by
    rw [List.find?_eq_none]
    intro r hr
    have := List.of_mem_filter hr
    simp at this ⊢
    exact this
  rw [h1]
  simp

/-- C7: every call of performFullSync that passes the two pre-cycle checks
    runs to completion for ANY remote behavior (no per-item failure aborts
    the cycle), stores the wall-clock time as the last sync time both in
    memory and in app_settings, and returns a report whose success flag is
    true exactly when its error list is empty. -/
theorem performFullSync_records_time_and_success (svc : SyncSvc) (db : Db) (R : Remote)
    (now : Int) (cfg : SyncConfig) (hc : svc.syncConfig = some cfg)
    (hp : svc.syncInProgress = false) :
    (performFullSync svc db R now).2.1.lastSyncTime = some now ∧
    (performFullSync svc db R now).2.1.syncInProgress = false ∧
    getSetting (performFullSync svc db R now).2.2.1 "last_sync_time" = some (isoOf (some now)) ∧
    successIffNoErrors (performFullSync svc db R now).1 := by
  rw [performFullSync_ok_eq svc db R now cfg hc hp]
  refine ⟨rfl, rfl, getSetting_dbSetSetting _ _ _ _, ?_⟩
  simp only [successIffNoErrors]
  exact List.isEmpty_iff

/-- C7 witness: the cycle contract evaluated at a concrete configured idle
    state against a remote that rejects every push. -/
theorem performFullSync_records_time_and_success_witness :
    svcIdleClient.syncConfig = some cfgClient ∧ svcIdleClient.syncInProgress = false ∧
    ((performFullSync svcIdleClient emptyDb quietRemote 42).2.1.lastSyncTime = some 42 ∧
     (performFullSync svcIdleClient emptyDb quietRemote 42).2.1.syncInProgress = false ∧
     getSetting (performFullSync svcIdleClient emptyDb quietRemote 42).2.2.1 "last_sync_time" =
       some (isoOf (some 42)) ∧
     successIffNoErrors (performFullSync svcIdleClient emptyDb quietRemote 42).1) :=
  ⟨rfl, rfl, performFullSync_records_time_and_success svcIdleClient emptyDb quietRemote 42
      cfgClient rfl rfl⟩

/-! ## Claim C6 — fixed entity order, since parameter (corrected) -/

theorem handleDataConflictCategory_trace (p : ConflictPolicy) (now : Int) (st : CycleSt)
    (lc : MappedCategory) (rc : RemoteCategory) :
    (handleDataConflictCategory p now st lc rc).trace = st.trace := by
  simp only [handleDataConflictCategory]
  split <;> rfl

theorem handleRemoteCategory_trace (p : ConflictPolicy) (now : Int) (st : CycleSt)
    (rc : RemoteCategory) : (handleRemoteCategory p now st rc).trace = st.trace := by
  simp only [handleRemoteCategory]
  cases hfind : List.find? (fun c => c.id == rc.id) (List.map mapCategoryRow st.db.categories) with
  | none => rfl
  | some lc => exact handleDataConflictCategory_trace p now st lc rc

theorem pullCategoriesLoop_trace (p : ConflictPolicy) (now : Int) :
    ∀ (cats : List RemoteCategory) (st : CycleSt),
      (pullCategoriesLoop p now cats st).trace = st.trace := by
  intro cats
  induction cats with
  | nil => intro st; rfl
  | cons rc rest ih =>
      intro st
      show (pullCategoriesLoop p now rest (handleRemoteCategory p now st rc)).trace = st.trace
      rw [ih, handleRemoteCategory_trace]

theorem handleDataConflictInventory_trace (p : ConflictPolicy) (now : Int) (st : CycleSt)
    (li : MappedItem) (r : RemoteItem) :
    (handleDataConflictInventory p now st li r).trace = st.trace := by
  simp only [handleDataConflictInventory]
  split <;> rfl

theorem handleRemoteInventoryItem_trace (p : ConflictPolicy) (now : Int) (st : CycleSt)
    (r : RemoteItem) (st' : CycleSt) (h : handleRemoteInventoryItem p now st r = .ok st') :
    st'.trace = st.trace := by
  simp only [handleRemoteInventoryItem] at h
  cases hfind : getInventoryItemById st.db r.id with
  | none =>
      rw [hfind] at h
      cases hadd : addInventoryItemRows st.db.inventory_items (mappedOfRemoteItem r) with
      | error e => rw [hadd] at h; exact absurd h (by simp)
      | ok rows =>
          rw [hadd] at h
          have := Except.ok.inj h
          rw [← this]
  | some li =>
      rw [hfind] at h
      have := Except.ok.inj h
      rw [← this]
      exact handleDataConflictInventory_trace p now st li r

theorem pullInventoryLoop_trace (p : ConflictPolicy) (now : Int) :
    ∀ (items : List RemoteItem) (st : CycleSt),
      (pullInventoryLoop p now items st).trace = st.trace := by
  intro items
  induction items with
  | nil => intro st; rfl
  | cons r rest ih =>
      intro st
      show (match handleRemoteInventoryItem p now st r with
        | .ok st' => pullInventoryLoop p now rest st'
        | .error e =>
            { st with errors := st.errors ++ ["Inventory pull error: " ++ e] }).trace = st.trace
      cases h : handleRemoteInventoryItem p now st r with
      | ok st' =>
          rw [ih st']
          exact handleRemoteInventoryItem_trace p now st r st' h
      | error e => rfl

theorem pullFromServer_trace (p : ConflictPolicy) (R : Remote) (lastSync : Option Int)
    (now : Int) (st : CycleSt) :
    (pullFromServer p R lastSync now st).trace = st.trace ++ pullRequestsOf lastSync := by
  unfold pullFromServer pullCustomers pullOrders
  have h1 : (pullCategories p R now st).trace =
      st.trace ++ [{ method := "GET", path := "/categories" }] := by
    unfold pullCategories
    cases R.categoriesResp with
    | ok cats => rw [pullCategoriesLoop_trace]
    | err m => rfl
  have h2 : ∀ st2 : CycleSt, (pullInventoryItems p R lastSync now st2).trace =
      st2.trace ++ [{ method := "GET", path := "/inventory?since=" ++ isoOf lastSync }] := by
    intro st2
    unfold pullInventoryItems
    cases hr : R.inventorySince lastSync with
    | ok items => rw [pullInventoryLoop_trace]
    | err m => rfl
  simp only [h2, h1]
  simp [pullRequestsOf]

theorem pushRowsLoop_trace {ρ : Type} [SyncRow ρ] (R : Remote) (etype endpoint : String)
    (now : Int) :
    ∀ (pend : List ρ) (acc : PushAcc ρ),
      (pushRowsLoop R etype endpoint now pend acc).trace =
        acc.trace ++ pend.map (pushReqOf endpoint) := by
  intro pend
  induction pend with
  | nil => intro acc; simp [pushRowsLoop]
  | cons item rest ih =>
      intro acc
      show (match R.pushOutcome (pushReqOf endpoint item) with
        | .ok dataId => pushRowsLoop R etype endpoint now rest
            { rows := markItemSyncedRows acc.rows (SyncRow.rowId item)
                (dataId.orElse (fun _ => SyncRow.remoteId item)) now,
              synced := acc.synced + 1, errors := acc.errors,
              trace := acc.trace ++ [pushReqOf endpoint item], log := acc.log }
        | .fail msg => pushRowsLoop R etype endpoint now rest
            { rows := markItemSyncFailedRows acc.rows (SyncRow.rowId item),
              synced := acc.synced,
              errors := acc.errors ++ ["Failed to sync " ++ etype ++ " " ++
                SyncRow.rowId item ++ ": " ++ (msg.getD "Unknown error")],
              trace := acc.trace ++ [pushReqOf endpoint item],
              log := acc.log ++ [mkFailLogRow etype (SyncRow.rowId item)
                (msg.getD "Unknown error") now] }).trace =
        acc.trace ++ (item :: rest).map (pushReqOf endpoint)
      cases R.pushOutcome (pushReqOf endpoint item) with
      | ok dataId => rw [ih]; simp
      | fail msg => rw [ih]; simp

theorem pushTableRows_trace {ρ : Type} [SyncRow ρ] (R : Remote) (etype endpoint : String)
    (now : Int) (rows : List ρ) :
    (pushTableRows R etype endpoint now rows).trace = pushRequestsFor endpoint rows := by
  unfold pushTableRows pushRequestsFor
  rw [pushRowsLoop_trace]
  rfl

theorem pushPendingItems_categories_facts (R : Remote) (now : Int) (st : CycleSt) :
    (pushPendingItems R now .categories st).trace =
        st.trace ++ pushRequestsFor "/categories" st.db.categories ∧
    (pushPendingItems R now .categories st).db.inventory_items = st.db.inventory_items ∧
    (pushPendingItems R now .categories st).db.customers = st.db.customers ∧
    (pushPendingItems R now .categories st).db.orders = st.db.orders := by
  refine ⟨?_, rfl, rfl, rfl⟩
  show st.trace ++ (pushTableRows R "categories" (getEntityEndpoint .categories) now
    st.db.categories).trace = _
  rw [pushTableRows_trace]
  rfl

theorem pushPendingItems_inventory_facts (R : Remote) (now : Int) (st : CycleSt) :
    (pushPendingItems R now .inventory_items st).trace =
        st.trace ++ pushRequestsFor "/inventory" st.db.inventory_items ∧
    (pushPendingItems R now .inventory_items st).db.customers = st.db.customers ∧
    (pushPendingItems R now .inventory_items st).db.orders = st.db.orders := by
  refine ⟨?_, rfl, rfl⟩
  show st.trace ++ (pushTableRows R "inventory_items" (getEntityEndpoint .inventory_items) now
    st.db.inventory_items).trace = _
  rw [pushTableRows_trace]
  rfl

theorem pushPendingItems_customers_facts (R : Remote) (now : Int) (st : CycleSt) :
    (pushPendingItems R now .customers st).trace =
        st.trace ++ pushRequestsFor "/customers" st.db.customers ∧
    (pushPendingItems R now .customers st).db.orders = st.db.orders := by
  refine ⟨?_, rfl⟩
  show st.trace ++ (pushTableRows R "customers" (getEntityEndpoint .customers) now
    st.db.customers).trace = _
  rw [pushTableRows_trace]
  rfl

theorem pushPendingItems_orders_trace (R : Remote) (now : Int) (st : CycleSt) :
    (pushPendingItems R now .orders st).trace =
        st.trace ++ pushRequestsFor "/orders" st.db.orders := by
  show st.trace ++ (pushTableRows R "orders" (getEntityEndpoint .orders) now
    st.db.orders).trace = _
  rw [pushTableRows_trace]
  rfl

theorem pushToServer_trace (R : Remote) (now : Int) (st1 : CycleSt) :
    (pushToServer R now st1).trace = st1.trace ++
      (pushRequestsFor "/categories" st1.db.categories ++
       pushRequestsFor "/inventory" st1.db.inventory_items ++
       pushRequestsFor "/customers" st1.db.customers ++
       pushRequestsFor "/orders" st1.db.orders) := by
  unfold pushToServer
  obtain ⟨h1t, h1i, h1c, h1o⟩ := pushPendingItems_categories_facts R now st1
  obtain ⟨h2t, h2c, h2o⟩ := pushPendingItems_inventory_facts R now
    (pushPendingItems R now .categories st1)
  obtain ⟨h3t, h3o⟩ := pushPendingItems_customers_facts R now
    (pushPendingItems R now .inventory_items (pushPendingItems R now .categories st1))
  rw [pushPendingItems_orders_trace, h3t, h2t, h1t, h3o, h2o, h1o, h2c, h1c, h1i]
  simp [List.append_assoc]

/-- C6 counterexample: with the last successful sync time at 500000, a
    remote category last updated at time 0 — long BEFORE the last sync —
    is still pulled, inserted locally and counted as synced, because the
    categories pull (storage.ts 519) carries no since parameter.  This
    falsifies the claim that for every entity type the pull requests only
    the remote records updated at or after the last successful sync time. -/
theorem pullCategories_ignores_since_counterexample :
    ((performFullSync svcIdleServer emptyDb staleCatRemote 600000).2.2.1).categories.map
        (fun r => (r.id, r.sync_status)) = [("cold", SyncStatus.synced)] ∧
    ((performFullSync svcIdleServer emptyDb staleCatRemote 600000).1).toOption.map
        (fun r => r.totalSynced) = some 1 ∧
    ((performFullSync svcIdleServer emptyDb staleCatRemote 600000).2.2.2).take 1 =
        [{ method := "GET", path := "/categories" }] := by
  refine ⟨rfl, rfl, rfl⟩

/-- C6 (amended): the pull phase issues exactly four GET requests in the
    fixed order categories, inventory items, customers, orders; the
    inventory, customers and orders requests carry the since parameter
    (the last successful sync time, epoch when never synced) while the
    categories request carries NO since restriction; the push phase then
    issues its requests grouped by entity type in the same fixed order,
    one request per fetched pending row. -/
theorem sync_fixed_entity_order (svc : SyncSvc) (db : Db) (R : Remote) (now : Int)
    (cfg : SyncConfig) (hc : svc.syncConfig = some cfg) (hp : svc.syncInProgress = false) :
    (performFullSync svc db R now).2.2.2 =
      pullRequestsOf svc.lastSyncTime ++
      (pushRequestsFor "/categories"
        (pullFromServer cfg.conflictResolution R svc.lastSyncTime now
          { db := db, totalSynced := 0, errors := [], conflicts := [],
            trace := [] }).db.categories ++
       pushRequestsFor "/inventory"
        (pullFromServer cfg.conflictResolution R svc.lastSyncTime now
          { db := db, totalSynced := 0, errors := [], conflicts := [],
            trace := [] }).db.inventory_items ++
       pushRequestsFor "/customers"
        (pullFromServer cfg.conflictResolution R svc.lastSyncTime now
          { db := db, totalSynced := 0, errors := [], conflicts := [],
            trace := [] }).db.customers ++
       pushRequestsFor "/orders"
        (pullFromServer cfg.conflictResolution R svc.lastSyncTime now
          { db := db, totalSynced := 0, errors := [], conflicts := [],
            trace := [] }).db.orders) := by
  rw [performFullSync_ok_eq svc db R now cfg hc hp]
  show (pushToServer R now (pullFromServer cfg.conflictResolution R svc.lastSyncTime now
      { db := db, totalSynced := 0, errors := [], conflicts := [], trace := [] })).trace = _
  rw [pushToServer_trace, pullFromServer_trace]
  rfl

/-- C6 witness: the amended request order evaluated at a concrete
    configured idle state. -/
theorem sync_fixed_entity_order_witness :
    svcIdleClient.syncConfig = some cfgClient ∧ svcIdleClient.syncInProgress = false ∧
    (performFullSync svcIdleClient emptyDb quietRemote 7).2.2.2 =
      pullRequestsOf svcIdleClient.lastSyncTime ++
      (pushRequestsFor "/categories"
        (pullFromServer cfgClient.conflictResolution quietRemote svcIdleClient.lastSyncTime 7
          { db := emptyDb, totalSynced := 0, errors := [], conflicts := [],
            trace := [] }).db.categories ++
       pushRequestsFor "/inventory"
        (pullFromServer cfgClient.conflictResolution quietRemote svcIdleClient.lastSyncTime 7
          { db := emptyDb, totalSynced := 0, errors := [], conflicts := [],
            trace := [] }).db.inventory_items ++
       pushRequestsFor "/customers"
        (pullFromServer cfgClient.conflictResolution quietRemote svcIdleClient.lastSyncTime 7
          { db := emptyDb, totalSynced := 0, errors := [], conflicts := [],
            trace := [] }).db.customers ++
       pushRequestsFor "/orders"
        (pullFromServer cfgClient.conflictResolution quietRemote svcIdleClient.lastSyncTime 7
          { db := emptyDb, totalSynced := 0, errors := [], conflicts := [],
            trace := [] }).db.orders) :=
  ⟨rfl, rfl, sync_fixed_entity_order svcIdleClient emptyDb quietRemote 7 cfgClient rfl rfl⟩

/-! ## Claim C4 — idempotence of a second run (corrected) -/

theorem pendCount_append {ρ : Type} [SyncRow ρ] (l1 l2 : List ρ) :
    pendCount (l1 ++ l2) = pendCount l1 + pendCount l2 := by
  unfold pendCount
  rw [List.filter_append, List.length_append]

theorem pendCount_map_le {ρ : Type} [SyncRow ρ] (f : ρ → ρ)
    (hf : ∀ r, SyncRow.syncStatus (f r) = SyncStatus.pending →
      SyncRow.syncStatus r = SyncStatus.pending) :
    ∀ rows : List ρ, pendCount (rows.map f) ≤ pendCount rows := by
  intro rows
  induction rows with
  | nil => exact le_refl _
  | cons x xs ih =>
      show pendCount (f x :: xs.map f) ≤ pendCount (x :: xs)
      unfold pendCount at ih ⊢
      rw [List.filter_cons, List.filter_cons]
      by_cases hfx : SyncRow.syncStatus (f x) == SyncStatus.pending
      · have hx : (SyncRow.syncStatus x == SyncStatus.pending) = true := by
          have := hf x (by simpa using hfx)
          simp [this]
        rw [if_pos hfx, if_pos hx]
        simpa using Nat.succ_le_succ ih
      · rw [if_neg hfx]
        by_cases hx : SyncRow.syncStatus x == SyncStatus.pending
        · rw [if_pos hx]
          exact le_trans ih (by simp)
        · rw [if_neg hx]
          exact ih

theorem pendCount_markSyncedRows_le {ρ : Type} [SyncRow ρ] (rows : List ρ) (id : String)
    (rid : Option String) (now : Int) :
    pendCount (markItemSyncedRows rows id rid now) ≤ pendCount rows := by
  refine pendCount_map_le _ ?_ rows
  intro r hr
  by_cases hx : SyncRow.rowId r == id
  · rw [if_pos hx] at hr
    rw [SyncRow.status_markSynced] at hr
    exact absurd hr (by simp)
  · rwa [if_neg hx] at hr

theorem pendCount_markFailedRows_le {ρ : Type} [SyncRow ρ] (rows : List ρ) (id : String) :
    pendCount (markItemSyncFailedRows rows id) ≤ pendCount rows := by
  refine pendCount_map_le _ ?_ rows
  intro r hr
  by_cases hx : SyncRow.rowId r == id
  · rw [if_pos hx] at hr
    rw [SyncRow.status_setStatus] at hr
    exact absurd hr (by simp)
  · rwa [if_neg hx] at hr

theorem pendCount_markSynced_append_new {ρ : Type} [SyncRow ρ] (rows : List ρ) (x : ρ)
    (rid : Option String) (now : Int) :
    pendCount (markItemSyncedRows (rows ++ [x]) (SyncRow.rowId x) rid now) ≤
      pendCount rows := by
  unfold markItemSyncedRows
  rw [List.map_append, pendCount_append]
  have h2 : pendCount (List.map (fun r => if SyncRow.rowId r == SyncRow.rowId x then
      SyncRow.markSynced r rid now else r) [x]) = 0 := by
    unfold pendCount
    have hx : (SyncRow.rowId x == SyncRow.rowId x) = true := by simp
    simp [hx, SyncRow.status_markSynced]
  rw [h2, Nat.add_zero]
  exact pendCount_markSyncedRows_le rows (SyncRow.rowId x) rid now

theorem pendCount_markSynced_update_le (rows : List ItemRow) (item : MappedItem)
    (rid : Option String) (t1 t2 : Int) :
    pendCount (markItemSyncedRows (updateItemRows rows item t1) item.id rid t2) ≤
      pendCount rows := by
  unfold markItemSyncedRows updateItemRows
  rw [List.map_map]
  refine pendCount_map_le _ ?_ rows
  intro r hr
  simp only [Function.comp] at hr
  by_cases hx : r.id == item.id
  · simp [instSyncRowItemRow, hx] at hr
  · simp [instSyncRowItemRow, hx] at hr
    simpa [instSyncRowItemRow] using hr

theorem handleRemoteCategory_db_facts (p : ConflictPolicy) (now : Int) (st : CycleSt)
    (rc : RemoteCategory) :
    pendCount (handleRemoteCategory p now st rc).db.categories ≤ pendCount st.db.categories ∧
    (handleRemoteCategory p now st rc).db.inventory_items = st.db.inventory_items ∧
    (handleRemoteCategory p now st rc).db.customers = st.db.customers ∧
    (handleRemoteCategory p now st rc).db.orders = st.db.orders := by
  simp only [handleRemoteCategory]
  cases hfind : List.find? (fun c => c.id == rc.id) (List.map mapCategoryRow st.db.categories) with
  | none =>
      refine ⟨?_, rfl, rfl, rfl⟩
      show pendCount (markItemSyncedRows
        (addCategoryRowsIgnore st.db.categories rc.id rc.name rc.description rc.color now)
        rc.id (some rc.id) now) ≤ _
      unfold addCategoryRowsIgnore
      by_cases hex : st.db.categories.any (fun r => r.id == rc.id)
      · rw [if_pos hex]
        exact pendCount_markSyncedRows_le _ _ _ _
      · rw [if_neg hex]
        exact pendCount_markSynced_append_new st.db.categories
          (newCategoryRow rc.id rc.name rc.description rc.color now) (some rc.id) now
  | some lc =>
      simp only [handleDataConflictCategory]
      split
      · exact ⟨pendCount_markSyncedRows_le _ _ _ _, rfl, rfl, rfl⟩
      · exact ⟨le_refl _, rfl, rfl, rfl⟩

theorem pullCategoriesLoop_db_facts (p : ConflictPolicy) (now : Int) :
    ∀ (cats : List RemoteCategory) (st : CycleSt),
      pendCount (pullCategoriesLoop p now cats st).db.categories ≤
        pendCount st.db.categories ∧
      (pullCategoriesLoop p now cats st).db.inventory_items = st.db.inventory_items ∧
      (pullCategoriesLoop p now cats st).db.customers = st.db.customers ∧
      (pullCategoriesLoop p now cats st).db.orders = st.db.orders := by
  intro cats
  induction cats with
  | nil => exact fun st => ⟨le_refl _, rfl, rfl, rfl⟩
  | cons rc rest ih =>
      intro st
      have hstep := handleRemoteCategory_db_facts p now st rc
      have hrest := ih (handleRemoteCategory p now st rc)
      rw [show pullCategoriesLoop p now (rc :: rest) st =
        pullCategoriesLoop p now rest (handleRemoteCategory p now st rc) from rfl]
      refine ⟨le_trans hrest.1 hstep.1, ?_, ?_, ?_⟩
      · rw [hrest.2.1, hstep.2.1]
      · rw [hrest.2.2.1, hstep.2.2.1]
      · rw [hrest.2.2.2, hstep.2.2.2]

theorem handleDataConflictInventory_db_facts (p : ConflictPolicy) (now : Int) (st : CycleSt)
    (li : MappedItem) (r : RemoteItem) :
    pendCount (handleDataConflictInventory p now st li r).db.inventory_items ≤
      pendCount st.db.inventory_items ∧
    (handleDataConflictInventory p now st li r).db.categories = st.db.categories ∧
    (handleDataConflictInventory p now st li r).db.customers = st.db.customers ∧
    (handleDataConflictInventory p now st li r).db.orders = st.db.orders := by
  simp only [handleDataConflictInventory]
  split
  · refine ⟨?_, rfl, rfl, rfl⟩
    show pendCount (markItemSyncedRows
      (updateItemRows st.db.inventory_items (mergedItem li r) now) li.id (some r.id) now) ≤ _
    exact pendCount_markSynced_update_le st.db.inventory_items (mergedItem li r)
      (some r.id) now now
  · exact ⟨le_refl _, rfl, rfl, rfl⟩

theorem handleRemoteInventoryItem_db_facts (p : ConflictPolicy) (now : Int) (st : CycleSt)
    (r : RemoteItem) (st' : CycleSt) (h : handleRemoteInventoryItem p now st r = .ok st') :
    pendCount st'.db.inventory_items ≤ pendCount st.db.inventory_items ∧
    st'.db.categories = st.db.categories ∧
    st'.db.customers = st.db.customers ∧
    st'.db.orders = st.db.orders := by
  simp only [handleRemoteInventoryItem] at h
  cases hfind : getInventoryItemById st.db r.id with
  | none =>
      rw [hfind] at h
      cases hadd : addInventoryItemRows st.db.inventory_items (mappedOfRemoteItem r) with
      | error e => rw [hadd] at h; exact absurd h (by simp)
      | ok rows =>
          rw [hadd] at h
          have hst := Except.ok.inj h
          unfold addInventoryItemRows at hadd
          by_cases hex : st.db.inventory_items.any (fun x => x.id == (mappedOfRemoteItem r).id)
          · rw [if_pos hex] at hadd
            exact absurd hadd (by simp)
          · rw [if_neg hex] at hadd
            have hrows : rows = st.db.inventory_items ++ [newItemRow (mappedOfRemoteItem r)] :=
              (Except.ok.inj hadd).symm
            rw [← hst]
            refine ⟨?_, rfl, rfl, rfl⟩
            show pendCount (markItemSyncedRows rows (mappedOfRemoteItem r).id (some r.id) now) ≤ _
            rw [hrows]
            exact pendCount_markSynced_append_new st.db.inventory_items
              (newItemRow (mappedOfRemoteItem r)) (some r.id) now
  | some li =>
      rw [hfind] at h
      have hst := Except.ok.inj h
      rw [← hst]
      exact handleDataConflictInventory_db_facts p now st li r

theorem pullInventoryLoop_db_facts (p : ConflictPolicy) (now : Int) :
    ∀ (items : List RemoteItem) (st : CycleSt),
      pendCount (pullInventoryLoop p now items st).db.inventory_items ≤
        pendCount st.db.inventory_items ∧
      (pullInventoryLoop p now items st).db.categories = st.db.categories ∧
      (pullInventoryLoop p now items st).db.customers = st.db.customers ∧
      (pullInventoryLoop p now items st).db.orders = st.db.orders := by
  intro items
  induction items with
  | nil => exact fun st => ⟨le_refl _, rfl, rfl, rfl⟩
  | cons r rest ih =>
      intro st
      rw [show pullInventoryLoop p now (r :: rest) st =
        (match handleRemoteInventoryItem p now st r with
         | .ok st' => pullInventoryLoop p now rest st'
         | .error e =>
             { st with errors := st.errors ++ ["Inventory pull error: " ++ e] }) from rfl]
      cases h : handleRemoteInventoryItem p now st r with
      | ok st' =>
          have hstep := handleRemoteInventoryItem_db_facts p now st r st' h
          have hrest := ih st'
          refine ⟨le_trans hrest.1 hstep.1, ?_, ?_, ?_⟩
          · rw [hrest.2.1, hstep.2.1]
          · rw [hrest.2.2.1, hstep.2.2.1]
          · rw [hrest.2.2.2, hstep.2.2.2]
      | error e => exact ⟨le_refl _, rfl, rfl, rfl⟩

theorem pullFromServer_db_facts (p : ConflictPolicy) (R : Remote) (lastSync : Option Int)
    (now : Int) (st : CycleSt) :
    pendCount (pullFromServer p R lastSync now st).db.categories ≤
      pendCount st.db.categories ∧
    pendCount (pullFromServer p R lastSync now st).db.inventory_items ≤
      pendCount st.db.inventory_items ∧
    (pullFromServer p R lastSync now st).db.customers = st.db.customers ∧
    (pullFromServer p R lastSync now st).db.orders = st.db.orders := by
  unfold pullFromServer pullCustomers pullOrders
  have hcat : ∀ st0 : CycleSt,
      pendCount (pullCategories p R now st0).db.categories ≤ pendCount st0.db.categories ∧
      (pullCategories p R now st0).db.inventory_items = st0.db.inventory_items ∧
      (pullCategories p R now st0).db.customers = st0.db.customers ∧
      (pullCategories p R now st0).db.orders = st0.db.orders := by
    intro st0
    unfold pullCategories
    cases R.categoriesResp with
    | ok cats => exact pullCategoriesLoop_db_facts p now cats _
    | err m => exact ⟨le_refl _, rfl, rfl, rfl⟩
  have hinv : ∀ st0 : CycleSt,
      pendCount (pullInventoryItems p R lastSync now st0).db.inventory_items ≤
        pendCount st0.db.inventory_items ∧
      (pullInventoryItems p R lastSync now st0).db.categories = st0.db.categories ∧
      (pullInventoryItems p R lastSync now st0).db.customers = st0.db.customers ∧
      (pullInventoryItems p R lastSync now st0).db.orders = st0.db.orders := by
    intro st0
    unfold pullInventoryItems
    cases R.inventorySince lastSync with
    | ok items => exact pullInventoryLoop_db_facts p now items _
    | err m => exact ⟨le_refl _, rfl, rfl, rfl⟩
  obtain ⟨h1p, h1i, h1c, h1o⟩ := hcat st
  obtain ⟨h2p, h2cat, h2c, h2o⟩ := hinv (pullCategories p R now st)
  refine ⟨?_, ?_, ?_, ?_⟩
  · show pendCount (pullInventoryItems p R lastSync now (pullCategories p R now st)).db.categories ≤ _
    rw [h2cat]
    exact h1p
  · show pendCount (pullInventoryItems p R lastSync now (pullCategories p R now st)).db.inventory_items ≤ _
    rw [h1i] at h2p
    exact h2p
  · show (pullInventoryItems p R lastSync now (pullCategories p R now st)).db.customers = _
    rw [h2c, h1c]
  · show (pullInventoryItems p R lastSync now (pullCategories p R now st)).db.orders = _
    rw [h2o, h1o]

theorem pushRowsLoop_clears {ρ : Type} [SyncRow ρ] (R : Remote) (etype e : String) (now : Int) :
    ∀ (pend : List ρ) (acc : PushAcc ρ),
      (∀ r ∈ acc.rows, SyncRow.syncStatus r = SyncStatus.pending →
        SyncRow.rowId r ∈ pend.map SyncRow.rowId) →
      rowsNonPending (pushRowsLoop R etype e now pend acc).rows := by
  intro pend
  induction pend with
  | nil =>
      intro acc h r hr hp
      exact absurd (h r hr hp) (List.not_mem_nil _)
  | cons item rest ih =>
      intro acc h
      rw [show pushRowsLoop R etype e now (item :: rest) acc =
        (match R.pushOutcome (pushReqOf e item) with
         | .ok dataId => pushRowsLoop R etype e now rest
             { rows := markItemSyncedRows acc.rows (SyncRow.rowId item)
                 (dataId.orElse (fun _ => SyncRow.remoteId item)) now,
               synced := acc.synced + 1, errors := acc.errors,
               trace := acc.trace ++ [pushReqOf e item], log := acc.log }
         | .fail msg => pushRowsLoop R etype e now rest
             { rows := markItemSyncFailedRows acc.rows (SyncRow.rowId item),
               synced := acc.synced,
               errors := acc.errors ++ ["Failed to sync " ++ etype ++ " " ++
                 SyncRow.rowId item ++ ": " ++ (msg.getD "Unknown error")],
               trace := acc.trace ++ [pushReqOf e item],
               log := acc.log ++ [mkFailLogRow etype (SyncRow.rowId item)
                 (msg.getD "Unknown error") now] }) from rfl]
      cases R.pushOutcome (pushReqOf e item) with
      | ok dataId =>
          apply ih
          intro r hr hp
          obtain ⟨x, hx, hgx⟩ := List.mem_map.mp hr
          by_cases hxx : SyncRow.rowId x == SyncRow.rowId item
          · exfalso
            rw [if_pos hxx] at hgx
            rw [← hgx] at hp
            rw [SyncRow.status_markSynced] at hp
            exact absurd hp (by simp)
          · rw [if_neg hxx] at hgx
            subst hgx
            have hmem := h x hx hp
            rw [List.map_cons] at hmem
            rcases List.mem_cons.mp hmem with h1 | h2
            · exact absurd (by simp [h1]) hxx
            · exact h2
      | fail msg =>
          apply ih
          intro r hr hp
          obtain ⟨x, hx, hgx⟩ := List.mem_map.mp hr
          by_cases hxx : SyncRow.rowId x == SyncRow.rowId item
          · exfalso
            rw [if_pos hxx] at hgx
            rw [← hgx] at hp
            rw [SyncRow.status_setStatus] at hp
            exact absurd hp (by simp)
          · rw [if_neg hxx] at hgx
            subst hgx
            have hmem := h x hx hp
            rw [List.map_cons] at hmem
            rcases List.mem_cons.mp hmem with h1 | h2
            · exact absurd (by simp [h1]) hxx
            · exact h2

theorem pushTableRows_clears {ρ : Type} [SyncRow ρ] (R : Remote) (etype e : String)
    (now : Int) (rows : List ρ) (h : pendCount rows ≤ 100) :
    rowsNonPending (pushTableRows R etype e now rows).rows := by
  unfold pushTableRows
  apply pushRowsLoop_clears
  intro r hr hp
  unfold getPendingSyncItems
  rw [List.take_of_length_le h]
  refine List.mem_map.mpr ⟨r, ?_, rfl⟩
  exact List.mem_filter.mpr ⟨hr, by simp [hp]⟩

theorem getPendingSyncItems_of_nonPending {ρ : Type} [SyncRow ρ] (rows : List ρ)
    (h : rowsNonPending rows) (limit : Nat) : getPendingSyncItems rows limit = [] := by
  unfold getPendingSyncItems
  have hf : rows.filter (fun r => SyncRow.syncStatus r == SyncStatus.pending) = [] := by
    rw [List.filter_eq_nil_iff]
    intro r hr
    simpa using h r hr
  rw [hf]
  exact List.take_nil

theorem pushTableRows_of_nonPending {ρ : Type} [SyncRow ρ] (R : Remote) (etype e : String)
    (now : Int) (rows : List ρ) (h : rowsNonPending rows) :
    pushTableRows R etype e now rows =
      { rows := rows, synced := 0, errors := [], trace := [], log := [] } := by
  unfold pushTableRows
  rw [getPendingSyncItems_of_nonPending rows h 100]
  rfl

theorem pushPendingItems_id_cat (R : Remote) (now : Int) (st : CycleSt)
    (h : rowsNonPending st.db.categories) :
    pushPendingItems R now .categories st = st := by
  have hout := pushTableRows_of_nonPending R "categories" (getEntityEndpoint .categories) now
    st.db.categories h
  simp only [pushPendingItems, hout]
  simp

theorem pushPendingItems_id_inv (R : Remote) (now : Int) (st : CycleSt)
    (h : rowsNonPending st.db.inventory_items) :
    pushPendingItems R now .inventory_items st = st := by
  have hout := pushTableRows_of_nonPending R "inventory_items"
    (getEntityEndpoint .inventory_items) now st.db.inventory_items h
  simp only [pushPendingItems, hout]
  simp

theorem pushPendingItems_id_cust (R : Remote) (now : Int) (st : CycleSt)
    (h : rowsNonPending st.db.customers) :
    pushPendingItems R now .customers st = st := by
  have hout := pushTableRows_of_nonPending R "customers" (getEntityEndpoint .customers) now
    st.db.customers h
  simp only [pushPendingItems, hout]
  simp

theorem pushPendingItems_id_ord (R : Remote) (now : Int) (st : CycleSt)
    (h : rowsNonPending st.db.orders) :
    pushPendingItems R now .orders st = st := by
  have hout := pushTableRows_of_nonPending R "orders" (getEntityEndpoint .orders) now
    st.db.orders h
  simp only [pushPendingItems, hout]
  simp

theorem pushToServer_quiescent (R : Remote) (now : Int) (st : CycleSt)
    (h1 : rowsNonPending st.db.categories) (h2 : rowsNonPending st.db.inventory_items)
    (h3 : rowsNonPending st.db.customers) (h4 : rowsNonPending st.db.orders) :
    pushToServer R now st = st := by
  simp only [pushToServer]
  rw [pushPendingItems_id_cat R now st h1, pushPendingItems_id_inv R now st h2,
    pushPendingItems_id_cust R now st h3, pushPendingItems_id_ord R now st h4]

theorem pushPendingItems_table_results (R : Remote) (now : Int) (st : CycleSt) :
    (pushPendingItems R now .categories st).db.categories =
      (pushTableRows R "categories" "/categories" now st.db.categories).rows ∧
    (pushPendingItems R now .inventory_items st).db.inventory_items =
      (pushTableRows R "inventory_items" "/inventory" now st.db.inventory_items).rows ∧
    (pushPendingItems R now .customers st).db.customers =
      (pushTableRows R "customers" "/customers" now st.db.customers).rows ∧
    (pushPendingItems R now .orders st).db.orders =
      (pushTableRows R "orders" "/orders" now st.db.orders).rows ∧
    (pushPendingItems R now .inventory_items st).db.categories = st.db.categories ∧
    (pushPendingItems R now .customers st).db.categories = st.db.categories ∧
    (pushPendingItems R now .customers st).db.inventory_items = st.db.inventory_items ∧
    (pushPendingItems R now .orders st).db.categories = st.db.categories ∧
    (pushPendingItems R now .orders st).db.inventory_items = st.db.inventory_items ∧
    (pushPendingItems R now .orders st).db.customers = st.db.customers :=
  ⟨rfl, rfl, rfl, rfl, rfl, rfl, rfl, rfl, rfl, rfl⟩

theorem pushToServer_clears (R : Remote) (now : Int) (st : CycleSt)
    (h1 : pendCount st.db.categories ≤ 100) (h2 : pendCount st.db.inventory_items ≤ 100)
    (h3 : pendCount st.db.customers ≤ 100) (h4 : pendCount st.db.orders ≤ 100) :
    rowsNonPending (pushToServer R now st).db.categories ∧
    rowsNonPending (pushToServer R now st).db.inventory_items ∧
    rowsNonPending (pushToServer R now st).db.customers ∧
    rowsNonPending (pushToServer R now st).db.orders := by
  simp only [pushToServer]
  obtain ⟨e1, e2, e3, e4, f1, f2, f3, f4, f5, f6⟩ :=
    pushPendingItems_table_results R now st
  have s1 : rowsNonPending (pushPendingItems R now .categories st).db.categories := by
    rw [e1]
    exact pushTableRows_clears R "categories" "/categories" now st.db.categories h1
  obtain ⟨h1t, h1i, h1c, h1o⟩ := pushPendingItems_categories_facts R now st
  have s2 : rowsNonPending (pushPendingItems R now .inventory_items
      (pushPendingItems R now .categories st)).db.inventory_items := by
    rw [(pushPendingItems_table_results R now (pushPendingItems R now .categories st)).2.1, h1i]
    exact pushTableRows_clears R "inventory_items" "/inventory" now st.db.inventory_items h2
  have s2c : rowsNonPending (pushPendingItems R now .inventory_items
      (pushPendingItems R now .categories st)).db.categories := by
    rw [(pushPendingItems_table_results R now (pushPendingItems R now .categories st)).2.2.2.2.1]
    exact s1
  obtain ⟨h2t, h2c, h2o⟩ := pushPendingItems_inventory_facts R now
    (pushPendingItems R now .categories st)
  have hcust2 : (pushPendingItems R now .inventory_items
      (pushPendingItems R now .categories st)).db.customers = st.db.customers := by
    rw [h2c, h1c]
  have hord2 : (pushPendingItems R now .inventory_items
      (pushPendingItems R now .categories st)).db.orders = st.db.orders := by
    rw [h2o, h1o]
  set stB := pushPendingItems R now .inventory_items (pushPendingItems R now .categories st)
  have s3 : rowsNonPending (pushPendingItems R now .customers stB).db.customers := by
    rw [(pushPendingItems_table_results R now stB).2.2.1, hcust2]
    exact pushTableRows_clears R "customers" "/customers" now st.db.customers h3
  have s3c : rowsNonPending (pushPendingItems R now .customers stB).db.categories := by
    rw [(pushPendingItems_table_results R now stB).2.2.2.2.2.1]
    exact s2c
  have s3i : rowsNonPending (pushPendingItems R now .customers stB).db.inventory_items := by
    rw [(pushPendingItems_table_results R now stB).2.2.2.2.2.2.1]
    exact s2
  obtain ⟨h3t, h3o⟩ := pushPendingItems_customers_facts R now stB
  have hord3 : (pushPendingItems R now .customers stB).db.orders = st.db.orders := by
    rw [h3o, hord2]
  set stC := pushPendingItems R now .customers stB
  have s4 : rowsNonPending (pushPendingItems R now .orders stC).db.orders := by
    rw [(pushPendingItems_table_results R now stC).2.2.2.1, hord3]
    exact pushTableRows_clears R "orders" "/orders" now st.db.orders h4
  have s4c : rowsNonPending (pushPendingItems R now .orders stC).db.categories := by
    rw [(pushPendingItems_table_results R now stC).2.2.2.2.2.2.2.1]
    exact s3c
  have s4i : rowsNonPending (pushPendingItems R now .orders stC).db.inventory_items := by
    rw [(pushPendingItems_table_results R now stC).2.2.2.2.2.2.2.2.1]
    exact s3i
  have s4cu : rowsNonPending (pushPendingItems R now .orders stC).db.customers := by
    rw [(pushPendingItems_table_results R now stC).2.2.2.2.2.2.2.2.2]
    exact s3
  exact ⟨s4c, s4i, s4cu, s4⟩

theorem presence_map {ρ : Type} [SyncRow ρ] (g : ρ → ρ)
    (hg : ∀ x, SyncRow.rowId (g x) = SyncRow.rowId x) (rows : List ρ) (id : String)
    (h : ∃ r ∈ rows, SyncRow.rowId r = id) :
    ∃ r ∈ rows.map g, SyncRow.rowId r = id := by
  obtain ⟨r, hr, hid⟩ := h
  exact ⟨g r, List.mem_map_of_mem g hr, by rw [hg r]; exact hid⟩

theorem presence_markSyncedRows {ρ : Type} [SyncRow ρ] (rows : List ρ) (mid : String)
    (rid : Option String) (now : Int) (id : String)
    (h : ∃ r ∈ rows, SyncRow.rowId r = id) :
    ∃ r ∈ markItemSyncedRows rows mid rid now, SyncRow.rowId r = id := by
  refine presence_map _ ?_ rows id h
  intro x
  by_cases hx : SyncRow.rowId x == mid
  · rw [if_pos hx]
    exact SyncRow.rowId_markSynced x rid now
  · rw [if_neg hx]

theorem presence_markFailedRows {ρ : Type} [SyncRow ρ] (rows : List ρ) (mid : String)
    (id : String) (h : ∃ r ∈ rows, SyncRow.rowId r = id) :
    ∃ r ∈ markItemSyncFailedRows rows mid, SyncRow.rowId r = id := by
  refine presence_map _ ?_ rows id h
  intro x
  by_cases hx : SyncRow.rowId x == mid
  · rw [if_pos hx]
    exact SyncRow.rowId_setStatus x SyncStatus.failed
  · rw [if_neg hx]

theorem catIdPresent_def (db : Db) (id : String) :
    catIdPresent db id ↔ ∃ r ∈ db.categories, SyncRow.rowId r = id := Iff.rfl

theorem handleRemoteCategory_presence (p : ConflictPolicy) (now : Int) (st : CycleSt)
    (rc : RemoteCategory) (id : String) (h : catIdPresent st.db id) :
    catIdPresent (handleRemoteCategory p now st rc).db id := by
  simp only [handleRemoteCategory]
  cases hfind : List.find? (fun c => c.id == rc.id) (List.map mapCategoryRow st.db.categories) with
  | none =>
      show ∃ r ∈ markItemSyncedRows
        (addCategoryRowsIgnore st.db.categories rc.id rc.name rc.description rc.color now)
        rc.id (some rc.id) now, r.id = id
      have hpres : ∃ r ∈ addCategoryRowsIgnore st.db.categories rc.id rc.name rc.description
          rc.color now, SyncRow.rowId r = id := by
        unfold addCategoryRowsIgnore
        obtain ⟨r, hr, hid⟩ := h
        by_cases hex : st.db.categories.any (fun x => x.id == rc.id)
        · rw [if_pos hex]
          exact ⟨r, hr, hid⟩
        · rw [if_neg hex]
          exact ⟨r, List.mem_append_left _ hr, hid⟩
      exact presence_markSyncedRows _ rc.id (some rc.id) now id hpres
  | some lc =>
      simp only [handleDataConflictCategory]
      split
      · show ∃ r ∈ markItemSyncedRows st.db.categories lc.id (some rc.id) now, r.id = id
        exact presence_markSyncedRows _ lc.id (some rc.id) now id h
      · exact h

theorem handleRemoteCategory_establishes (p : ConflictPolicy) (now : Int) (st : CycleSt)
    (rc : RemoteCategory) : catIdPresent (handleRemoteCategory p now st rc).db rc.id := by
  simp only [handleRemoteCategory]
  cases hfind : List.find? (fun c => c.id == rc.id) (List.map mapCategoryRow st.db.categories) with
  | none =>
      show ∃ r ∈ markItemSyncedRows
        (addCategoryRowsIgnore st.db.categories rc.id rc.name rc.description rc.color now)
        rc.id (some rc.id) now, r.id = rc.id
      have hpres : ∃ r ∈ addCategoryRowsIgnore st.db.categories rc.id rc.name rc.description
          rc.color now, SyncRow.rowId r = rc.id := by
        unfold addCategoryRowsIgnore
        by_cases hex : st.db.categories.any (fun x => x.id == rc.id)
        · rw [if_pos hex]
          obtain ⟨r, hr, hrid⟩ := List.any_eq_true.mp hex
          exact ⟨r, hr, eq_of_beq hrid⟩
        · rw [if_neg hex]
          refine ⟨newCategoryRow rc.id rc.name rc.description rc.color now, ?_, rfl⟩
          exact List.mem_append_right _ (List.mem_singleton.mpr rfl)
      exact presence_markSyncedRows _ rc.id (some rc.id) now rc.id hpres
  | some lc =>
      have hlc := List.find?_some hfind
      have hmem := List.mem_of_find?_eq_some hfind
      obtain ⟨row, hrow, hmap⟩ := List.mem_map.mp hmem
      have hrowid : row.id = rc.id := by
        have : lc.id = rc.id := eq_of_beq hlc
        rw [← this, ← hmap]
        rfl
      simp only [handleDataConflictCategory]
      split
      · show ∃ r ∈ markItemSyncedRows st.db.categories lc.id (some rc.id) now, r.id = rc.id
        exact presence_markSyncedRows _ lc.id (some rc.id) now rc.id ⟨row, hrow, hrowid⟩
      · exact ⟨row, hrow, hrowid⟩

theorem pullCategoriesLoop_presence (p : ConflictPolicy) (now : Int) :
    ∀ (cats : List RemoteCategory) (st : CycleSt) (id : String),
      catIdPresent st.db id → catIdPresent (pullCategoriesLoop p now cats st).db id := by
  intro cats
  induction cats with
  | nil => exact fun st id h => h
  | cons rc rest ih =>
      intro st id h
      exact ih (handleRemoteCategory p now st rc) id
        (handleRemoteCategory_presence p now st rc id h)

theorem pullCategoriesLoop_establishes (p : ConflictPolicy) (now : Int) :
    ∀ (cats : List RemoteCategory) (st : CycleSt) (rc : RemoteCategory), rc ∈ cats →
      catIdPresent (pullCategoriesLoop p now cats st).db rc.id := by
  intro cats
  induction cats with
  | nil => intro st rc h; exact absurd h (List.not_mem_nil rc)
  | cons rc0 rest ih =>
      intro st rc h
      rcases List.mem_cons.mp h with h1 | h2
      · subst h1
        exact pullCategoriesLoop_presence p now rest _ rc.id
          (handleRemoteCategory_establishes p now st rc)
      · exact ih (handleRemoteCategory p now st rc0) rc h2

theorem resolveUseRemote_local_undefined (p : ConflictPolicy)
    (hpol : p = .clientWins ∨ p = .newestWins) (t : Int) :
    resolveUseRemote p none (some t) = false := by
  rcases hpol with h | h <;> subst h <;> rfl

theorem handleRemoteCategory_quiescent (p : ConflictPolicy)
    (hpol : p = .clientWins ∨ p = .newestWins) (now : Int) (st : CycleSt)
    (rc : RemoteCategory) (h : catIdPresent st.db rc.id) :
    (handleRemoteCategory p now st rc).db = st.db ∧
    (handleRemoteCategory p now st rc).totalSynced = st.totalSynced ∧
    (handleRemoteCategory p now st rc).errors = st.errors := by
  simp only [handleRemoteCategory]
  have hsome : (List.find? (fun c => c.id == rc.id)
      (List.map mapCategoryRow st.db.categories)).isSome := by
    rw [List.find?_isSome]
    obtain ⟨r, hr, hid⟩ := h
    exact ⟨mapCategoryRow r, List.mem_map_of_mem _ hr, by simp [mapCategoryRow, hid]⟩
  obtain ⟨lc, hlc⟩ := Option.isSome_iff_exists.mp hsome
  rw [hlc]
  simp only [handleDataConflictCategory]
  rw [resolveUseRemote_local_undefined p hpol rc.updated_at]
  rw [if_neg]
  · exact ⟨rfl, rfl, rfl⟩
  · simp

theorem pullCategoriesLoop_quiescent (p : ConflictPolicy)
    (hpol : p = .clientWins ∨ p = .newestWins) (now : Int) :
    ∀ (cats : List RemoteCategory) (st : CycleSt),
      (∀ rc ∈ cats, catIdPresent st.db rc.id) →
      (pullCategoriesLoop p now cats st).db = st.db ∧
      (pullCategoriesLoop p now cats st).totalSynced = st.totalSynced ∧
      (pullCategoriesLoop p now cats st).errors = st.errors := by
  intro cats
  induction cats with
  | nil => exact fun st _ => ⟨rfl, rfl, rfl⟩
  | cons rc rest ih =>
      intro st h
      have hstep := handleRemoteCategory_quiescent p hpol now st rc
        (h rc (List.mem_cons_self rc rest))
      have hrest := ih (handleRemoteCategory p now st rc) (by
        intro rc' hrc'
        unfold catIdPresent
        rw [hstep.1]
        exact h rc' (List.mem_cons_of_mem rc hrc'))
      rw [show pullCategoriesLoop p now (rc :: rest) st =
        pullCategoriesLoop p now rest (handleRemoteCategory p now st rc) from rfl]
      exact ⟨hrest.1.trans hstep.1, hrest.2.1.trans hstep.2.1, hrest.2.2.trans hstep.2.2⟩

theorem pullFromServer_quiescent (p : ConflictPolicy)
    (hpol : p = .clientWins ∨ p = .newestWins) (R : Remote) (lastSync : Option Int)
    (now : Int) (st : CycleSt)
    (hcats : ∀ cats, R.categoriesResp = GetResp.ok cats →
      ∀ rc ∈ cats, catIdPresent st.db rc.id)
    (hinv : ∀ l, R.inventorySince lastSync = GetResp.ok l → l = []) :
    (pullFromServer p R lastSync now st).db = st.db ∧
    (pullFromServer p R lastSync now st).totalSynced = st.totalSynced ∧
    (pullFromServer p R lastSync now st).errors = st.errors := by
  unfold pullFromServer pullCustomers pullOrders
  have hcat : (pullCategories p R now st).db = st.db ∧
      (pullCategories p R now st).totalSynced = st.totalSynced ∧
      (pullCategories p R now st).errors = st.errors := by
    unfold pullCategories
    cases hr : R.categoriesResp with
    | ok cats =>
        exact pullCategoriesLoop_quiescent p hpol now cats _ (hcats cats hr)
    | err m => exact ⟨rfl, rfl, rfl⟩
  have hinv2 : ∀ st2 : CycleSt, (pullInventoryItems p R lastSync now st2).db = st2.db ∧
      (pullInventoryItems p R lastSync now st2).totalSynced = st2.totalSynced ∧
      (pullInventoryItems p R lastSync now st2).errors = st2.errors := by
    intro st2
    unfold pullInventoryItems
    cases hr : R.inventorySince lastSync with
    | ok items =>
        have : items = [] := hinv items hr
        subst this
        exact ⟨rfl, rfl, rfl⟩
    | err m => exact ⟨rfl, rfl, rfl⟩
  obtain ⟨d2, t2, e2⟩ := hinv2 (pullCategories p R now st)
  exact ⟨d2.trans hcat.1, t2.trans hcat.2.1, e2.trans hcat.2.2⟩

theorem pushRowsLoop_presence {ρ : Type} [SyncRow ρ] (R : Remote) (etype e : String)
    (now : Int) :
    ∀ (pend : List ρ) (acc : PushAcc ρ) (id : String),
      (∃ r ∈ acc.rows, SyncRow.rowId r = id) →
      ∃ r ∈ (pushRowsLoop R etype e now pend acc).rows, SyncRow.rowId r = id := by
  intro pend
  induction pend with
  | nil => exact fun acc id h => h
  | cons item rest ih =>
      intro acc id h
      rw [show pushRowsLoop R etype e now (item :: rest) acc =
        (match R.pushOutcome (pushReqOf e item) with
         | .ok dataId => pushRowsLoop R etype e now rest
             { rows := markItemSyncedRows acc.rows (SyncRow.rowId item)
                 (dataId.orElse (fun _ => SyncRow.remoteId item)) now,
               synced := acc.synced + 1, errors := acc.errors,
               trace := acc.trace ++ [pushReqOf e item], log := acc.log }
         | .fail msg => pushRowsLoop R etype e now rest
             { rows := markItemSyncFailedRows acc.rows (SyncRow.rowId item),
               synced := acc.synced,
               errors := acc.errors ++ ["Failed to sync " ++ etype ++ " " ++
                 SyncRow.rowId item ++ ": " ++ (msg.getD "Unknown error")],
               trace := acc.trace ++ [pushReqOf e item],
               log := acc.log ++ [mkFailLogRow etype (SyncRow.rowId item)
                 (msg.getD "Unknown error") now] }) from rfl]
      cases R.pushOutcome (pushReqOf e item) with
      | ok dataId =>
          exact ih _ id (presence_markSyncedRows acc.rows (SyncRow.rowId item) _ now id h)
      | fail msg =>
          exact ih _ id (presence_markFailedRows acc.rows (SyncRow.rowId item) id h)

theorem pushToServer_cat_presence (R : Remote) (now : Int) (st : CycleSt) (id : String)
    (h : catIdPresent st.db id) : catIdPresent (pushToServer R now st).db id := by
  simp only [pushToServer]
  have s1 : catIdPresent (pushPendingItems R now .categories st).db id := by
    show ∃ r ∈ (pushPendingItems R now .categories st).db.categories, r.id = id
    rw [(pushPendingItems_table_results R now st).1]
    unfold pushTableRows
    exact pushRowsLoop_presence R "categories" "/categories" now _ _ id h
  have s2 : catIdPresent (pushPendingItems R now .inventory_items
      (pushPendingItems R now .categories st)).db id := by
    show ∃ r ∈ (pushPendingItems R now .inventory_items
      (pushPendingItems R now .categories st)).db.categories, r.id = id
    rw [(pushPendingItems_table_results R now (pushPendingItems R now .categories st)).2.2.2.2.1]
    exact s1
  have s3 : catIdPresent (pushPendingItems R now .customers (pushPendingItems R now
      .inventory_items (pushPendingItems R now .categories st))).db id := by
    show ∃ r ∈ (pushPendingItems R now .customers (pushPendingItems R now .inventory_items
      (pushPendingItems R now .categories st))).db.categories, r.id = id
    rw [(pushPendingItems_table_results R now (pushPendingItems R now .inventory_items
      (pushPendingItems R now .categories st))).2.2.2.2.2.1]
    exact s2
  show ∃ r ∈ (pushPendingItems R now .orders (pushPendingItems R now .customers
    (pushPendingItems R now .inventory_items
      (pushPendingItems R now .categories st)))).db.categories, r.id = id
  rw [(pushPendingItems_table_results R now (pushPendingItems R now .customers
    (pushPendingItems R now .inventory_items
      (pushPendingItems R now .categories st)))).2.2.2.2.2.2.2.1]
  exact s3

theorem performFullSync_svc_proj (svc : SyncSvc) (db : Db) (R : Remote) (now : Int)
    (cfg : SyncConfig) (hc : svc.syncConfig = some cfg) (hp : svc.syncInProgress = false) :
    (performFullSync svc db R now).2.1 =
      { svc with lastSyncTime := some now, syncInProgress := false } := by
  rw [performFullSync_ok_eq svc db R now cfg hc hp]

theorem performFullSync_db_proj (svc : SyncSvc) (db : Db) (R : Remote) (now : Int)
    (cfg : SyncConfig) (hc : svc.syncConfig = some cfg) (hp : svc.syncInProgress = false) :
    (performFullSync svc db R now).2.2.1 =
      dbSetSetting (pushToServer R now (pullFromServer cfg.conflictResolution R
        svc.lastSyncTime now
        { db := db, totalSynced := 0, errors := [], conflicts := [], trace := [] })).db
        "last_sync_time" (isoOf (some now)) now := by
  rw [performFullSync_ok_eq svc db R now cfg hc hp]

theorem performFullSync_result_proj (svc : SyncSvc) (db : Db) (R : Remote) (now : Int)
    (cfg : SyncConfig) (hc : svc.syncConfig = some cfg) (hp : svc.syncInProgress = false) :
    (performFullSync svc db R now).1.toOption.map (fun r => (r.totalSynced, r.errors)) =
      some ((pushToServer R now (pullFromServer cfg.conflictResolution R svc.lastSyncTime now
          { db := db, totalSynced := 0, errors := [], conflicts := [],
            trace := [] })).totalSynced,
        (pushToServer R now (pullFromServer cfg.conflictResolution R svc.lastSyncTime now
          { db := db, totalSynced := 0, errors := [], conflicts := [],
            trace := [] })).errors) := by
  rw [performFullSync_ok_eq svc db R now cfg hc hp]
  rfl

theorem performFullSync_clears (svc : SyncSvc) (db : Db) (R : Remote) (now : Int)
    (cfg : SyncConfig) (hc : svc.syncConfig = some cfg) (hp : svc.syncInProgress = false)
    (h1 : pendCount db.categories ≤ 100) (h2 : pendCount db.inventory_items ≤ 100)
    (h3 : pendCount db.customers ≤ 100) (h4 : pendCount db.orders ≤ 100) :
    rowsNonPending ((performFullSync svc db R now).2.2.1).categories ∧
    rowsNonPending ((performFullSync svc db R now).2.2.1).inventory_items ∧
    rowsNonPending ((performFullSync svc db R now).2.2.1).customers ∧
    rowsNonPending ((performFullSync svc db R now).2.2.1).orders := by
  rw [performFullSync_db_proj svc db R now cfg hc hp]
  obtain ⟨p1, p2, p3, p4⟩ := pullFromServer_db_facts cfg.conflictResolution R
    svc.lastSyncTime now
    { db := db, totalSynced := 0, errors := [], conflicts := [], trace := [] }
  have hq := pushToServer_clears R now
    (pullFromServer cfg.conflictResolution R svc.lastSyncTime now
      { db := db, totalSynced := 0, errors := [], conflicts := [], trace := [] })
    (le_trans p1 h1) (le_trans p2 h2) (by rw [p3]; exact h3) (by rw [p4]; exact h4)
  exact hq

theorem performFullSync_cat_presence (svc : SyncSvc) (db : Db) (R : Remote) (now : Int)
    (cfg : SyncConfig) (hc : svc.syncConfig = some cfg) (hp : svc.syncInProgress = false)
    (cats : List RemoteCategory) (hR : R.categoriesResp = GetResp.ok cats)
    (rc : RemoteCategory) (hrc : rc ∈ cats) :
    catIdPresent (performFullSync svc db R now).2.2.1 rc.id := by
  rw [performFullSync_db_proj svc db R now cfg hc hp]
  have hpull : catIdPresent (pullFromServer cfg.conflictResolution R svc.lastSyncTime now
      { db := db, totalSynced := 0, errors := [], conflicts := [], trace := [] }).db rc.id := by
    unfold pullFromServer pullCustomers pullOrders
    have hcat : catIdPresent (pullCategories cfg.conflictResolution R now
        { db := db, totalSynced := 0, errors := [], conflicts := [],
          trace := [] }).db rc.id := by
      unfold pullCategories
      rw [hR]
      exact pullCategoriesLoop_establishes cfg.conflictResolution now cats _ rc hrc
    have hinvfr : (pullInventoryItems cfg.conflictResolution R svc.lastSyncTime now
        (pullCategories cfg.conflictResolution R now
          { db := db, totalSynced := 0, errors := [], conflicts := [],
            trace := [] })).db.categories =
        (pullCategories cfg.conflictResolution R now
          { db := db, totalSynced := 0, errors := [], conflicts := [],
            trace := [] }).db.categories := by
      unfold pullInventoryItems
      cases hr : R.inventorySince svc.lastSyncTime with
      | ok items => exact (pullInventoryLoop_db_facts cfg.conflictResolution now items _).2.1
      | err m => rfl
    unfold catIdPresent at hcat ⊢
    rw [hinvfr]
    exact hcat
  exact pushToServer_cat_presence R now _ rc.id hpull

/-- C4 counterexample: under the ServerWins policy, a second run with no
    local mutations and no remote changes still reports totalSynced = 1:
    the categories pull carries no since restriction, so the unchanged
    remote category is re-pulled, re-resolved in favour of the server and
    re-counted.  This falsifies the claim for the ServerWins policy. -/
theorem second_run_serverWins_resyncs_categories :
    ((performFullSync (performFullSync svcIdleServer oneCatDb oneCatRemote 600000).2.1
        (performFullSync svcIdleServer oneCatDb oneCatRemote 600000).2.2.1
        oneCatRemote 700000).1).toOption.map (fun r => (r.totalSynced, r.errors)) =
      some (1, ([] : List String)) := by
  rfl

/-- C4 (amended): running performFullSync twice in succession with no
    intervening local mutations and no remote changes yields a second run
    with totalSynced = 0 and an empty error list under the ClientWins and
    NewestWins policies (with at most one push batch of pending records per
    table in the first run).  Under ServerWins the property fails: the
    categories pull carries no since restriction, so every remote category
    is re-pulled and re-counted each cycle. -/
theorem performFullSync_second_run_quiescent (svc : SyncSvc) (db : Db) (R : Remote)
    (now1 now2 : Int) (cfg : SyncConfig)
    (hc : svc.syncConfig = some cfg)
    (hpol : cfg.conflictResolution = .clientWins ∨ cfg.conflictResolution = .newestWins)
    (hp : svc.syncInProgress = false)
    (h1 : pendCount db.categories ≤ 100) (h2 : pendCount db.inventory_items ≤ 100)
    (h3 : pendCount db.customers ≤ 100) (h4 : pendCount db.orders ≤ 100)
    (hrem : ∀ l, R.inventoryResp = GetResp.ok l → ∀ it ∈ l, it.updated_at < now1) :
    ((performFullSync (performFullSync svc db R now1).2.1
        (performFullSync svc db R now1).2.2.1 R now2).1).toOption.map
      (fun r => (r.totalSynced, r.errors)) = some (0, ([] : List String)) := by
  have hsvc1 := performFullSync_svc_proj svc db R now1 cfg hc hp
  have hc1 : (performFullSync svc db R now1).2.1.syncConfig = some cfg := by
    rw [hsvc1]
    exact hc
  have hp1 : (performFullSync svc db R now1).2.1.syncInProgress = false := by
    rw [hsvc1]
  have hls1 : (performFullSync svc db R now1).2.1.lastSyncTime = some now1 := by
    rw [hsvc1]
  rw [performFullSync_result_proj (performFullSync svc db R now1).2.1
    (performFullSync svc db R now1).2.2.1 R now2 cfg hc1 hp1]
  rw [hls1]
  have hclr := performFullSync_clears svc db R now1 cfg hc hp h1 h2 h3 h4
  have hinv : ∀ l, R.inventorySince (some now1) = GetResp.ok l → l = [] := by
    intro l hl
    unfold Remote.inventorySince at hl
    cases hR : R.inventoryResp with
    | ok l0 =>
        rw [hR] at hl
        have hfl := GetResp.ok.inj hl
        rw [← hfl]
        rw [List.filter_eq_nil_iff]
        intro it hit
        have hlt := hrem l0 hR it hit
        simp only [Option.getD, decide_eq_true_eq]
        omega
    | err m =>
        rw [hR] at hl
        exact absurd hl (by simp)
  have hcats : ∀ cats, R.categoriesResp = GetResp.ok cats → ∀ rc ∈ cats,
      catIdPresent (performFullSync svc db R now1).2.2.1 rc.id :=
    fun cats hR rc hrc => performFullSync_cat_presence svc db R now1 cfg hc hp cats hR rc hrc
  have hq := pullFromServer_quiescent cfg.conflictResolution hpol R (some now1) now2
    ⟨(performFullSync svc db R now1).2.2.1, 0, [], [], []⟩ hcats hinv
  have hnp1 : rowsNonPending (pullFromServer cfg.conflictResolution R (some now1) now2
      ⟨(performFullSync svc db R now1).2.2.1, 0, [], [], []⟩).db.categories := by
    rw [hq.1]
    exact hclr.1
  have hnp2 : rowsNonPending (pullFromServer cfg.conflictResolution R (some now1) now2
      ⟨(performFullSync svc db R now1).2.2.1, 0, [], [], []⟩).db.inventory_items := by
    rw [hq.1]
    exact hclr.2.1
  have hnp3 : rowsNonPending (pullFromServer cfg.conflictResolution R (some now1) now2
      ⟨(performFullSync svc db R now1).2.2.1, 0, [], [], []⟩).db.customers := by
    rw [hq.1]
    exact hclr.2.2.1
  have hnp4 : rowsNonPending (pullFromServer cfg.conflictResolution R (some now1) now2
      ⟨(performFullSync svc db R now1).2.2.1, 0, [], [], []⟩).db.orders := by
    rw [hq.1]
    exact hclr.2.2.2
  rw [pushToServer_quiescent R now2 _ hnp1 hnp2 hnp3 hnp4]
  rw [hq.2.1, hq.2.2]

/-- C4 witness: the quiescent second run evaluated at a concrete
    client-wins state with an empty store and an empty remote. -/
theorem performFullSync_second_run_quiescent_witness :
    svcIdleClient.syncConfig = some cfgClient ∧
    cfgClient.conflictResolution = ConflictPolicy.clientWins ∧
    ((performFullSync (performFullSync svcIdleClient emptyDb quietRemote 1000).2.1
        (performFullSync svcIdleClient emptyDb quietRemote 1000).2.2.1
        quietRemote 2000).1).toOption.map
      (fun r => (r.totalSynced, r.errors)) = some (0, ([] : List String)) :=
  ⟨rfl, rfl, performFullSync_second_run_quiescent svcIdleClient emptyDb quietRemote 1000 2000
      cfgClient rfl (Or.inl rfl) rfl (by decide) (by decide) (by decide) (by decide)
      (fun l hl => by
        have h2 : GetResp.ok ([] : List RemoteItem) = GetResp.ok l := hl
        cases GetResp.ok.inj h2
        intro it hit
        exact absurd hit (List.not_mem_nil it))⟩
